import Mathlib

/-!
Verification development for the V-CORE engine (vcore-topological-chip).

The Python core (src/core/lattice.py, gravity.py, seed_memory.py,
sri_yantra_core.py) is shallowly embedded below:

* Python dicts are modelled as association lists with Python's dict
  semantics (lookup of the first matching key; assignment updates in
  place, insertion appends at the end; `setdefault` appends only when
  the key is absent).  Keys are `Int` or `String`.
* Python floats are modelled as rationals (`ℚ`); the engine only does
  comparisons, complements and clamping on them.
* Fallible Python code (raising exceptions) is modelled with `Except`.
  `json.JSONDecodeError` (a `json.loads` failure) is `PyErr.jsonDecodeError`;
  `int(...)`/`float(...)` coercion failures are `PyErr.valueError` /
  `PyErr.typeError`; attribute lookups on the wrong type (`.items()`,
  `.get(...)` on a non-dict) are `PyErr.attributeError`.
* JSON payloads are modelled by the inductive `Json`; serialising a
  `Json` value with `json.dumps` and re-parsing it with `json.loads` is
  the identity on this model, so the textual layer is elided and an
  unparseable payload is modelled as `none : Option Json`.
-/

/-- The kinds of Python exception relevant to the core. -/
inductive PyErr where
  | jsonDecodeError
  | valueError
  | typeError
  | attributeError
deriving DecidableEq, Repr

/-- Python dict lookup `d.get(k)` / `d[k]` (first matching key). -/
def dictGet [BEq α] : List (α × β) → α → Option β
  | [], _ => none
  | kv :: t, k => if kv.1 == k then some kv.2 else dictGet t k

/-- Python dict assignment `d[k] = v`: update in place, append if the key is new. -/
def dictSet [BEq α] : List (α × β) → α → β → List (α × β)
  | [], k, v => [(k, v)]
  | kv :: t, k, v => if kv.1 == k then (kv.1, v) :: t else kv :: dictSet t k v

/-- Python `d.setdefault(k, v)`: append `(k, v)` only when `k` is absent. -/
def dictSetdefault [BEq α] (d : List (α × β)) (k : α) (v : β) : List (α × β) :=
  match dictGet d k with
  | some _ => d
  | none => d ++ [(k, v)]

/-- All keys of the association list are pairwise distinct. -/
def keysUniq : List (Int × Int) → Bool
  | [] => true
  | kv :: t => (dictGet t kv.1).isNone && keysUniq t

/-- Little-endian base-10 digits of `n` (empty for 0), with explicit fuel so the
kernel can evaluate it. -/
def natDigitsRevFuel : Nat → Nat → List Nat
  | 0, _ => []
  | fuel + 1, n => if n = 0 then [] else n % 10 :: natDigitsRevFuel fuel (n / 10)

def natDigitsRev (n : Nat) : List Nat := natDigitsRevFuel n n

def digitsRevToNat : List Nat → Nat
  | [] => 0
  | d :: ds => d + 10 * digitsRevToNat ds

/-- The decimal digit characters of `n`, most significant first; `0 ↦ ['0']`.
This models the output of Python's `str` on a non-negative integer. -/
def natDigitChars (n : Nat) : List Char :=
  if n = 0 then [Char.ofNat 48] else ((natDigitsRev n).reverse.map Nat.digitChar)

/-- Python `str(n)` for a natural number. -/
def pyStrOfNat (n : Nat) : String := String.mk (natDigitChars n)

/-- Python `str(k)` for an integer. -/
def pyStrOfInt (k : Int) : String :=
  if k < 0 then String.mk (Char.ofNat 45 :: natDigitChars k.natAbs)
  else pyStrOfNat k.natAbs

/-- Value of a list of decimal digit characters, most significant first. -/
def digitsValNat (cs : List Char) : Nat :=
  cs.foldl (fun a c => a * 10 + (c.toNat - 48)) 0

/-- Parse a non-empty all-digit character list as a natural number. -/
def parseNatChars (cs : List Char) : Option Nat :=
  if cs.isEmpty then none
  else if cs.all Char.isDigit then some (digitsValNat cs) else none

/-- Python `int(s)` on a string: optional sign followed by decimal digits.
(Python also strips surrounding whitespace and allows `_` separators; the
engine never produces such strings, so they are not modelled.) -/
def pyParseInt (s : String) : Except PyErr Int :=
  match s.data with
  | '-' :: cs =>
    match parseNatChars cs with
    | some n => .ok (-(n : Int))
    | none => .error .valueError
  | '+' :: cs =>
    match parseNatChars cs with
    | some n => .ok ((n : Int))
    | none => .error .valueError
  | cs =>
    match parseNatChars cs with
    | some n => .ok ((n : Int))
    | none => .error .valueError

/-- Floor of a rational as an integer (Python `math.floor`). -/
def ratFloor (q : ℚ) : Int := Int.fdiv q.num q.den

/-- Ceiling of a rational as an integer (Python `math.ceil`). -/
def ratCeil (q : ℚ) : Int := -(ratFloor (-q))

/-- Truncation toward zero (Python `int(float)`). -/
def ratTrunc (q : ℚ) : Int := if q < 0 then -(ratFloor (-q)) else ratFloor q

/-- Round to the nearest integer, ties to even (IEEE/Python rounding used by
`format(x, ".2f")`). -/
def roundHalfEven (q : ℚ) : Int :=
  let f := ratFloor q
  let r := q - f
  if r < 1/2 then f else if 1/2 < r then f + 1 else if f % 2 = 0 then f else f + 1

/-- Python `f"{x:.2f}"` for a non-negative rational: two decimal places,
round half to even.  (On binary floats the rounded value can differ in the
last place for exact ties; no claim depends on the digits.) -/
def fmt2 (q : ℚ) : String :=
  let nn := (roundHalfEven (q * 100)).toNat
  let frac := nn % 100
  pyStrOfNat (nn / 100) ++ "." ++
    (if frac < 10 then "0" ++ pyStrOfNat frac else pyStrOfNat frac)

/-- Boolean `s.startswith(p)` (Python `str.startswith`). -/
def pyStartsWith (s p : String) : Bool := p.data.isPrefixOf s.data

/-- Parsed JSON values (the result of a successful `json.loads`). -/
inductive Json where
  | jnull
  | jbool (b : Bool)
  | jint (n : Int)
  | jfloat (q : ℚ)
  | jstr (s : String)
  | jarr (xs : List Json)
  | jobj (fields : List (String × Json))

/-- Python `str(x)` on a JSON value.  (For floats with a fractional part and
for containers Python's element-wise repr is not reproduced digit for digit;
the engine only ever applies `str` to strings here and no claim depends on
the other cases.) -/
def pyStr : Json → String
  | .jnull => "None"
  | .jbool true => "True"
  | .jbool false => "False"
  | .jint n => pyStrOfInt n
  | .jfloat q => if q.den = 1 then pyStrOfInt q.num ++ ".0" else "<float>"
  | .jstr s => s
  | .jarr _ => "<list>"
  | .jobj _ => "<dict>"

/-- Python `int(x)` on a JSON value. -/
def pyInt : Json → Except PyErr Int
  | .jint n => .ok n
  | .jfloat q => .ok (ratTrunc q)
  | .jbool b => .ok (if b then 1 else 0)
  | .jstr s => pyParseInt s
  | _ => .error .typeError

/-- Magnitude part of Python `float(s)`: digits with an optional decimal
point (exponents, `inf`/`nan` and whitespace are not modelled; the engine
never produces such strings). -/
def pyParseFloatMag (cs : List Char) : Option ℚ :=
  match cs.splitOn '.' with
  | [a] => (parseNatChars a).map (fun n => ((n : ℚ)))
  | [a, b] =>
    if a.isEmpty && b.isEmpty then none
    else if a.all Char.isDigit && b.all Char.isDigit then
      some ((digitsValNat a : ℚ) + (digitsValNat b : ℚ) / (10 : ℚ) ^ b.length)
    else none
  | _ => none

/-- Python `float(s)` on a string. -/
def pyParseFloat (s : String) : Option ℚ :=
  match s.data with
  | '-' :: cs => (pyParseFloatMag cs).map (fun q => (-q))
  | '+' :: cs => pyParseFloatMag cs
  | cs => pyParseFloatMag cs

/-- Python `float(x)` on a JSON value. -/
def pyFloat : Json → Except PyErr ℚ
  | .jint n => .ok ((n : ℚ))
  | .jfloat q => .ok q
  | .jbool b => .ok (if b then 1 else 0)
  | .jstr s =>
    match pyParseFloat s with
    | some q => .ok q
    | none => .error .valueError
  | _ => .error .typeError

/-! ## src/core/lattice.py -/

def OCTAVES : Int := 7

def PHASES : Int := 6

/-- lattice.py `TOPIC_TO_OCTAVE`. -/
def TOPIC_TO_OCTAVE : List (String × Int) :=
  [("matter", 1), ("system", 2), ("flow", 3), ("life", 4),
   ("logic", 5), ("drive", 6), ("spiritual", 7)]

/-- lattice.py `clamp`. -/
def clampQ (x lo hi : ℚ) : ℚ := if x < lo then lo else if hi < x then hi else x

/-- lattice.py `strength_to_phase`: quantize strength (0..1) into phase (1..6). -/
def strength_to_phase (strength : ℚ) : Int :=
  let s := clampQ strength 0 1
  let phase := ratCeil (s * PHASES)
  if phase < 1 then 1 else if PHASES < phase then PHASES else phase

/-- lattice.py `state_id`: state ids 1..42, raising `ValueError` out of range. -/
def state_id (octave phase : Int) : Except PyErr Int :=
  if octave < 1 ∨ OCTAVES < octave then .error .valueError
  else if phase < 1 ∨ PHASES < phase then .error .valueError
  else .ok ((octave - 1) * PHASES + phase)

/-- lattice.py `VFaceLattice`: per-octave fill counters held in a dict. -/
structure VFaceLattice where
  faces : List (Int × Int)
deriving DecidableEq, Repr

/-- Model of `VFaceLattice.__init__`: `\x7bi: 0 for i in range(1, OCTAVES + 1)\x7d`. -/
def VFaceLattice.initL : VFaceLattice :=
  ⟨[(1, 0), (2, 0), (3, 0), (4, 0), (5, 0), (6, 0), (7, 0)]⟩

/-- Model of `VFaceLattice.fill_level` (`self.faces[octave]`).  A missing key raises
`KeyError` in Python; every caller in the core only uses keys 1..7, which
are always present (`latticeKeysOK` below), so the `getD 0` default is never
exercised on states the engine can reach. -/
def VFaceLattice.fill_level (l : VFaceLattice) (octave : Int) : Int :=
  (dictGet l.faces octave).getD 0

/-- Model of `VFaceLattice.add`: saturating increment, true iff the face reaches 6 now. -/
def VFaceLattice.add (l : VFaceLattice) (octave : Int) : VFaceLattice × Bool :=
  let f := l.fill_level octave
  if f < PHASES then
    (⟨dictSet l.faces octave (f + 1)⟩, f + 1 == PHASES)
  else (l, false)

/-- Model of `VFaceLattice.is_crystal`. -/
def VFaceLattice.is_crystal (l : VFaceLattice) (octave : Int) : Bool :=
  l.fill_level octave == PHASES

/-- Model of `VFaceLattice.axis_ready`: octaves 1, 4, 7 all full. -/
def VFaceLattice.axis_ready (l : VFaceLattice) : Bool :=
  l.is_crystal 1 && l.is_crystal 4 && l.is_crystal 7

/-- Model of `VFaceLattice.snapshot` (a value copy of the dict). -/
def VFaceLattice.snapshot (l : VFaceLattice) : List (Int × Int) := l.faces

/-- Model of `VFaceLattice.restore`: rebuild the fill dict from the snapshot (the
`int(k)`/`int(v)` coercions are the identity here because `from_json` has
already coerced keys and values to integers), then default octaves 1..7. -/
def VFaceLattice.restore (snap : List (Int × Int)) : VFaceLattice :=
  let restored := snap.foldl (fun acc kv => dictSet acc kv.1 kv.2) []
  ⟨(List.range 7).foldl (fun acc (i : Nat) => dictSetdefault acc ((i : Int) + 1) 0) restored⟩

/-! ## src/core/gravity.py -/

/-- gravity.py `GravityDecision`. -/
structure GravityDecision where
  allowed : Bool
  corrected_octave : Int
  reason : String
deriving DecidableEq, Repr

/-- gravity.py `VMeruGravity` (configuration only: the base threshold). -/
structure VMeruGravity where
  base_threshold : Int
deriving DecidableEq, Repr

/-- Model of `VMeruGravity.layer` (static): BASE for 1-2, RING for 3-5, APEX above. -/
def VMeruGravity.layer (octave : Int) : String :=
  if octave ≤ 2 then "BASE" else if octave ≤ 5 then "RING" else "APEX"

/-- Model of `VMeruGravity.decide`: APEX entry requires `fill(1)+fill(2)` to reach the
base threshold; otherwise redirect to octave 1. -/
def VMeruGravity.gravityDecide (g : VMeruGravity) (octave : Int)
    (lattice : VFaceLattice) : GravityDecision :=
  let base_mass := lattice.fill_level 1 + lattice.fill_level 2
  let lay := VMeruGravity.layer octave
  if lay = ("APEX") ∧ base_mass < g.base_threshold then
    { allowed := false, corrected_octave := 1,
      reason := "GRAVITY_REJECT: base_mass=" ++ pyStrOfInt base_mass ++ " < " ++
        pyStrOfInt g.base_threshold ++ ", redirect->Matter" }
  else
    { allowed := true, corrected_octave := octave, reason := "OK" }

/-! ## src/core/seed_memory.py -/

/-- Model of seed_memory.py `VStateSeed`. -/
structure VStateSeed where
  timestamp : ℚ
  lattice : List (Int × Int)
  last_state_id : Int
  trail : List String
deriving DecidableEq, Repr

/-- Model of `VStateSeed.to_json`: the JSON payload produced by `json.dumps`
(which renders the integer dict keys of `lattice` as decimal strings). -/
def VStateSeed.to_json (seed : VStateSeed) : Json :=
  .jobj
    [("timestamp", .jfloat seed.timestamp),
     ("lattice", .jobj (seed.lattice.map (fun kv => (pyStrOfInt kv.1, .jint kv.2)))),
     ("last_state_id", .jint seed.last_state_id),
     ("trail", .jarr (seed.trail.map Json.jstr))]

/-- Model of the dict comprehension in `from_json`:
`\x7bint(k): int(v) for k, v in obj.get("lattice", \x7b\x7d).items()\x7d`
(keys evaluated before values, later duplicates overwrite earlier ones). -/
def latticeEntryStep (acc : Except PyErr (List (Int × Int))) (kv : String × Json) :
    Except PyErr (List (Int × Int)) :=
  match acc with
  | .error e => .error e
  | .ok d =>
    match pyParseInt kv.1 with
    | .error e => .error e
    | .ok ki =>
      match pyInt kv.2 with
      | .error e => .error e
      | .ok vi => .ok (dictSet d ki vi)

/-- Coercion of the `lattice` field: `.items()` on a non-dict raises
`AttributeError`. -/
def latticeOfJson : Json → Except PyErr (List (Int × Int))
  | .jobj lf => lf.foldl latticeEntryStep (.ok [])
  | _ => .error .attributeError

/-- Coercion of the `trail` field: `[str(x) for x in obj.get("trail", [])]`.
Iterating a string yields its characters and iterating a dict yields its
keys; iterating a number or `None` raises `TypeError`. -/
def trailOfJson : Json → Except PyErr (List String)
  | .jarr xs => .ok (xs.map pyStr)
  | .jstr s => .ok (s.data.map (fun ch => String.mk [ch]))
  | .jobj fs => .ok (fs.map (fun kv => kv.1))
  | _ => .error .typeError

/-- Model of `VStateSeed.from_json`.  `none` stands for a payload on which
`json.loads` raises `json.JSONDecodeError`; `now` is the value of
`time.time()` used as the default timestamp.  A parsed payload that is not
an object makes `obj.get` raise `AttributeError`; the four fields are then
coerced in source order, the first coercion failure raising. -/
def VStateSeed.from_json (now : ℚ) (payload : Option Json) : Except PyErr VStateSeed :=
  match payload with
  | none => .error .jsonDecodeError
  | some (.jobj fields) =>
    match pyFloat ((dictGet fields ("timestamp")).getD (.jfloat now)) with
    | .error e => .error e
    | .ok ts =>
      match latticeOfJson ((dictGet fields ("lattice")).getD (.jobj [])) with
      | .error e => .error e
      | .ok lat =>
        match pyInt ((dictGet fields ("last_state_id")).getD (.jint 0)) with
        | .error e => .error e
        | .ok sid =>
          match trailOfJson ((dictGet fields ("trail")).getD (.jarr [])) with
          | .error e => .error e
          | .ok tr => .ok ⟨ts, lat, sid, tr⟩
  | some _ => .error .attributeError

/-! ## src/core/sri_yantra_core.py -/

/-- Model of `VPacket` (dataclass with optional fields). -/
structure VPacket where
  content : String
  topic : Option String := none
  octave : Option Int := none
  strength : ℚ := 1/2
  coherence : Option ℚ := none
  shadow : Option ℚ := none
deriving DecidableEq, Repr

/-- Model of `VResult`. -/
structure VResult where
  accepted : Bool
  layer : String
  octave : Int
  phase : Int
  state_id : Int
  crystallized_face : Bool
  bindu_active : Bool
  note : String
deriving DecidableEq, Repr

/-- Model of the mutable state of `VSriYantraCore`. -/
structure VSriYantraCore where
  lattice : VFaceLattice
  gravity : VMeruGravity
  last_state_id : Int
  bindu_active : Bool
  trail : List String
  max_trail : Int
  layer_counts : List (String × Int)
deriving DecidableEq, Repr

/-- Model of `VSriYantraCore.__init__`. -/
def VSriYantraCore.init (base_threshold max_trail : Int) : VSriYantraCore :=
  { lattice := VFaceLattice.initL,
    gravity := { base_threshold := base_threshold },
    last_state_id := 0,
    bindu_active := false,
    trail := [],
    max_trail := max_trail,
    layer_counts := [("BASE", 0), ("RING", 0), ("APEX", 0)] }

/-- Model of `VSriYantraCore._resolve_octave`: explicit octave clamped to
[1,7]; else topic looked up (an empty-string topic is falsy), defaulting
to octave 2. -/
def resolve_octave (pkt : VPacket) : Int :=
  match pkt.octave with
  | some oc => if oc < 1 then 1 else if 7 < oc then 7 else oc
  | none =>
    match pkt.topic with
    | some t => if t = ("") then 2 else (dictGet TOPIC_TO_OCTAVE t).getD 2
    | none => 2

/-- Model of the coherence/shadow coupling at the top of `ingest`: if exactly
one of the two is present the other is written back into the packet as the
complement of the clamped value (this mutates the caller's packet). -/
def complementPkt (pkt : VPacket) : VPacket :=
  let pkt1 :=
    match pkt.coherence, pkt.shadow with
    | some co, none => { pkt with shadow := some (1 - clampQ co 0 1) }
    | _, _ => pkt
  match pkt1.shadow, pkt1.coherence with
  | some sh, none => { pkt1 with coherence := some (1 - clampQ sh 0 1) }
  | _, _ => pkt1

/-- Model of the shadow-drop step of `ingest`: a clamped shadow ≥ 0.75 forces
an intended octave above 2 down to octave 1. -/
def shadowOctNote (octIn : Int) (sh : Option ℚ) : Int × String :=
  match sh with
  | none => (octIn, "OK")
  | some s0 =>
    let s := clampQ s0 0 1
    if 3/4 ≤ s ∧ 2 < octIn then
      (1, "SHADOW_DROP(" ++ fmt2 s ++ ")->BASE")
    else (octIn, "OK")

/-- Model of the gravity-gate step of `ingest`: a rejection replaces both the
working octave and the note. -/
def postGravity (g : VMeruGravity) (l : VFaceLattice) (on1 : Int × String) :
    Int × String :=
  let d := g.gravityDecide on1.1 l
  if d.allowed then on1 else (d.corrected_octave, d.reason)

/-- Label appended to the trail: `f"\x7boctave\x7d.\x7bphase\x7d"`. -/
def trailLabel (octave phase : Int) : String :=
  pyStrOfInt octave ++ "." ++ pyStrOfInt phase

/-- Model of `VSriYantraCore.ingest`.  Returns the updated engine, the
(mutated) packet and the result.  The only fallible step is `state_id`;
an error there would propagate as a `ValueError` (it never does — see the
C7 theorem).  In Python `self.layer_counts` is bumped before `state_id`
is called; the two orders agree on the non-error path, the only path the
engine can take. -/
def VSriYantraCore.ingest (c : VSriYantraCore) (pkt : VPacket) :
    Except PyErr (VSriYantraCore × VPacket × VResult) :=
  let pkt2 := complementPkt pkt
  let on2 := postGravity c.gravity c.lattice (shadowOctNote (resolve_octave pkt) pkt2.shadow)
  let lay := VMeruGravity.layer on2.1
  let ph := strength_to_phase pkt2.strength
  match state_id on2.1 ph with
  | .error e => .error e
  | .ok sid =>
    let lc := dictSet c.layer_counts lay ((dictGet c.layer_counts lay).getD 0 + 1)
    let ar := c.lattice.add on2.1
    let tr0 := c.trail ++ [trailLabel on2.1 ph]
    let tr := if c.max_trail < (tr0.length : Int) then tr0.drop 1 else tr0
    .ok ({ c with
            lattice := ar.1
            last_state_id := sid
            bindu_active := ar.1.axis_ready
            trail := tr
            layer_counts := lc },
         pkt2,
         { accepted := true
           layer := lay
           octave := on2.1
           phase := ph
           state_id := sid
           crystallized_face := ar.2
           bindu_active := ar.1.axis_ready
           note := on2.2 })

/-- Model of `VSriYantraCore.export_seed`; `now` is `time.time()`.  The
produced JSON payload is returned as a `Json` value (`json.dumps` followed
by `json.loads` is the identity on it). -/
def VSriYantraCore.export_seed (now : ℚ) (c : VSriYantraCore) : Json :=
  VStateSeed.to_json
    { timestamp := now, lattice := c.lattice.snapshot,
      last_state_id := c.last_state_id, trail := c.trail }

/-- Python `seed.trail[-max_trail:]` (negative-index slicing, including the
degenerate `max_trail = 0` case where `[-0:]` keeps the whole list). -/
def pyTailSlice (l : List String) (mt : Int) : List String :=
  let start : Int := -mt
  let s : Int := if start < 0 then max 0 ((l.length : Int) + start)
                 else min start ((l.length : Int))
  l.drop s.toNat

/-- Model of `VSriYantraCore.import_seed`: decode, restore the lattice,
overwrite `last_state_id`, truncate and install the trail, recompute bindu.
An error from `from_json` propagates before any state is touched. -/
def VSriYantraCore.importSeed (now : ℚ) (c : VSriYantraCore) (payload : Option Json) :
    Except PyErr VSriYantraCore :=
  match VStateSeed.from_json now payload with
  | .error e => .error e
  | .ok seed =>
    let lat := VFaceLattice.restore seed.lattice
    .ok { c with
            lattice := lat
            last_state_id := seed.last_state_id
            trail := pyTailSlice seed.trail c.max_trail
            bindu_active := lat.axis_ready }

/-- Running `import_seed` and catching the exception: on failure the engine
object is unchanged (in Python the exception is raised before any field of
`self` is assigned). -/
def VSriYantraCore.importSeedTotal (now : ℚ) (c : VSriYantraCore)
    (payload : Option Json) : VSriYantraCore :=
  match VSriYantraCore.importSeed now c payload with
  | .ok c2 => c2
  | .error _ => c

/-- One externally visible state-mutating operation on an engine. -/
inductive VOp where
  | ing (pkt : VPacket)
  | imp (now : ℚ) (payload : Option Json)

/-- Apply one operation to the engine state.  The error branches are the
unreachable `ValueError` of `ingest` (see C7) and a failed `import_seed`,
which leaves the engine unchanged. -/
def VSriYantraCore.step (c : VSriYantraCore) (op : VOp) : VSriYantraCore :=
  match op with
  | .ing pkt =>
    match VSriYantraCore.ingest c pkt with
    | .ok out => out.1
    | .error _ => c
  | .imp now payload => VSriYantraCore.importSeedTotal now c payload

/-- Run a list of operations. -/
def VSriYantraCore.runOps (c : VSriYantraCore) (ops : List VOp) : VSriYantraCore :=
  ops.foldl VSriYantraCore.step c

/-- Engine states reachable from a freshly constructed engine by any
sequence of `ingest` / `import_seed` calls. -/
def ReachableCore (c : VSriYantraCore) : Prop :=
  ∃ bt mt ops, VSriYantraCore.runOps (VSriYantraCore.init bt mt) ops = c

/-- Decidable equality of `Except` results, for evaluating claims on
concrete inputs. -/
instance exceptDecEq [DecidableEq ε] [DecidableEq α] : DecidableEq (Except ε α) := fun a b =>
  match a, b with
  | .error x, .error y =>
    if h : x = y then .isTrue (by rw [h]) else .isFalse (fun hh => by cases hh; exact h rfl)
  | .ok x, .ok y =>
    if h : x = y then .isTrue (by rw [h]) else .isFalse (fun hh => by cases hh; exact h rfl)
  | .error _, .ok _ => .isFalse (fun hh => by cases hh)
  | .ok _, .error _ => .isFalse (fun hh => by cases hh)

/-- Run a list of `ingest` calls. -/
def execIngests (c : VSriYantraCore) (ps : List VPacket) : VSriYantraCore :=
  ps.foldl (fun c p => VSriYantraCore.step c (.ing p)) c

/-- Trail labels emitted by a list of `ingest` calls, in order.  (The
unreachable error branch emits nothing, matching `VSriYantraCore.step`.) -/
def ingestLabels (c : VSriYantraCore) : List VPacket → List String
  | [] => []
  | p :: ps =>
    match VSriYantraCore.ingest c p with
    | .ok out => trailLabel out.2.2.octave out.2.2.phase :: ingestLabels out.1 ps
    | .error _ => ingestLabels c ps

/-- Apply a sequence of `VFaceLattice.add` calls (the octave list). -/
def applyAdds (l : VFaceLattice) (os : List Int) : VFaceLattice :=
  os.foldl (fun l o => (l.add o).1) l

/-- Truncation of a trail to its most recent `mt` entries.  This is the
specification's notion of "truncated to the configured maximum"
(`[-mt:]` agrees with it for every `mt ≥ 1` but not for `mt = 0`). -/
def keepLast (mt : Int) (l : List String) : List String :=
  l.drop (l.length - mt.toNat)

/-! ## Helper lemmas about `state_id` -/

/-- On in-range arguments `state_id` returns `(octave-1)*6 + phase`. -/
theorem state_id_ok_eq (o p : Int) (ho1 : 1 ≤ o) (ho7 : o ≤ 7)
    (hp1 : 1 ≤ p) (hp6 : p ≤ 6) : state_id o p = .ok ((o - 1) * 6 + p) := by
  unfold state_id OCTAVES PHASES
  rw [if_neg (by omega), if_neg (by omega)]

/-- C8: restricted to octave ∈ [1,7] and phase ∈ [1,6], `state_id` is the
bijection `(octave−1)*6+phase` onto [1,42], with `state_id 1 1 = 1` and
`state_id 7 6 = 42`; outside those bounds it raises `ValueError`
(the InvalidRange error). -/
theorem stateId_bijection_C8 :
    (∀ o p : Int, 1 ≤ o → o ≤ 7 → 1 ≤ p → p ≤ 6 →
      state_id o p = .ok ((o - 1) * 6 + p) ∧
      1 ≤ (o - 1) * 6 + p ∧ (o - 1) * 6 + p ≤ 42) ∧
    (∀ o p o' p' : Int, 1 ≤ o → o ≤ 7 → 1 ≤ p → p ≤ 6 →
      1 ≤ o' → o' ≤ 7 → 1 ≤ p' → p' ≤ 6 →
      state_id o p = state_id o' p' → o = o' ∧ p = p') ∧
    (∀ s : Int, 1 ≤ s → s ≤ 42 →
      ∃ o p, 1 ≤ o ∧ o ≤ 7 ∧ 1 ≤ p ∧ p ≤ 6 ∧ state_id o p = .ok s) ∧
    state_id 1 1 = .ok 1 ∧ state_id 7 6 = .ok 42 ∧
    (∀ o p : Int, o < 1 ∨ 7 < o ∨ p < 1 ∨ 6 < p →
      state_id o p = .error .valueError) := by
  refine ⟨?_, ?_, ?_, ?_, ?_, ?_⟩
  · intro o p ho1 ho7 hp1 hp6
    exact ⟨state_id_ok_eq o p ho1 ho7 hp1 hp6, by omega, by omega⟩
  · intro o p o' p' ho1 ho7 hp1 hp6 ho1' ho7' hp1' hp6' heq
    rw [state_id_ok_eq o p ho1 ho7 hp1 hp6,
        state_id_ok_eq o' p' ho1' ho7' hp1' hp6'] at heq
    have : (o - 1) * 6 + p = (o' - 1) * 6 + p' := by injection heq
    omega
  · intro s hs1 hs42
    refine ⟨(s - 1) / 6 + 1, (s - 1) % 6 + 1, by omega, by omega, by omega, by omega, ?_⟩
    rw [state_id_ok_eq _ _ (by omega) (by omega) (by omega) (by omega)]
    exact congrArg Except.ok (by omega)
  · decide
  · decide
  · intro o p h
    unfold state_id OCTAVES PHASES
    rcases h with h | h | h | h
    · rw [if_pos (by omega)]
    · rw [if_pos (by omega)]
    · by_cases ho : o < 1 ∨ (7:Int) < o
      · rw [if_pos ho]
      · rw [if_neg ho, if_pos (by omega)]
    · by_cases ho : o < 1 ∨ (7:Int) < o
      · rw [if_pos ho]
      · rw [if_neg ho, if_pos (by omega)]

/-- Witness for C8 at concrete inputs: `state_id 3 4 = 16 ∈ [1,42]` and
out-of-range arguments raise. -/
theorem stateId_bijection_C8_witness :
    state_id 3 4 = .ok 16 ∧ state_id 40 2 = .error .valueError := by
  constructor
  · have h := (stateId_bijection_C8.1 3 4 (by decide) (by decide) (by decide) (by decide)).1
    simpa using h
  · exact stateId_bijection_C8.2.2.2.2.2 40 2 (by decide)

/-! ## Bounds of the working octave and phase inside `ingest` -/

/-- The resolved target octave is always in [1,7]. -/
theorem resolve_octave_bounds (pkt : VPacket) :
    1 ≤ resolve_octave pkt ∧ resolve_octave pkt ≤ 7 := by
  unfold resolve_octave
  split
  · split
    · omega
    · split
      · omega
      · omega
  · split
    · split
      · omega
      · simp only [TOPIC_TO_OCTAVE, dictGet]
        split
        · simp
        · split
          · simp
          · split
            · simp
            · split
              · simp
              · split
                · simp
                · split
                  · simp
                  · split
                    · simp
                    · simp
    · omega

/-- The quantized phase is always in [1,6]. -/
theorem strength_to_phase_bounds (q : ℚ) :
    1 ≤ strength_to_phase q ∧ strength_to_phase q ≤ 6 := by
  unfold strength_to_phase PHASES
  dsimp only
  split
  · omega
  · split
    · omega
    · omega

/-- The shadow-drop step keeps or lowers the working octave to 1. -/
theorem shadowOctNote_fst (octIn : Int) (sh : Option ℚ) :
    (shadowOctNote octIn sh).1 = 1 ∨ (shadowOctNote octIn sh).1 = octIn := by
  unfold shadowOctNote
  split
  · right; rfl
  · dsimp only
    split
    · left; rfl
    · right; rfl

/-- The gravity gate keeps the working octave or redirects it to 1. -/
theorem postGravity_fst (g : VMeruGravity) (l : VFaceLattice) (on1 : Int × String) :
    (postGravity g l on1).1 = 1 ∨ (postGravity g l on1).1 = on1.1 := by
  unfold postGravity VMeruGravity.gravityDecide
  dsimp only
  split
  · left; rfl
  · right; rfl

/-- The final working octave of an ingestion is in [1,7]. -/
theorem finalOct_bounds (c : VSriYantraCore) (pkt : VPacket) :
    1 ≤ (postGravity c.gravity c.lattice
          (shadowOctNote (resolve_octave pkt) (complementPkt pkt).shadow)).1 ∧
    (postGravity c.gravity c.lattice
          (shadowOctNote (resolve_octave pkt) (complementPkt pkt).shadow)).1 ≤ 7 := by
  have h1 := resolve_octave_bounds pkt
  have h2 := shadowOctNote_fst (resolve_octave pkt) (complementPkt pkt).shadow
  have h3 := postGravity_fst c.gravity c.lattice
    (shadowOctNote (resolve_octave pkt) (complementPkt pkt).shadow)
  rcases h3 with h3 | h3 <;> rcases h2 with h2 | h2 <;> omega

/-- The `state_id` call inside `ingest` always succeeds. -/
theorem ingest_state_id_ok (c : VSriYantraCore) (pkt : VPacket) :
    state_id (postGravity c.gravity c.lattice
        (shadowOctNote (resolve_octave pkt) (complementPkt pkt).shadow)).1
      (strength_to_phase (complementPkt pkt).strength) =
    .ok (((postGravity c.gravity c.lattice
        (shadowOctNote (resolve_octave pkt) (complementPkt pkt).shadow)).1 - 1) * 6 +
      strength_to_phase (complementPkt pkt).strength) := by
  have h1 := finalOct_bounds c pkt
  have h2 := strength_to_phase_bounds (complementPkt pkt).strength
  exact state_id_ok_eq _ _ h1.1 h1.2 h2.1 h2.2

/-- The octave an ingestion of `pkt` by engine `c` finally lands on. -/
def ingOct (c : VSriYantraCore) (pkt : VPacket) : Int :=
  (postGravity c.gravity c.lattice (shadowOctNote (resolve_octave pkt) (complementPkt pkt).shadow)).1

/-- The note an ingestion of `pkt` by engine `c` produces. -/
def ingNote (c : VSriYantraCore) (pkt : VPacket) : String :=
  (postGravity c.gravity c.lattice (shadowOctNote (resolve_octave pkt) (complementPkt pkt).shadow)).2

/-- The phase an ingestion of `pkt` quantizes to. -/
def ingPhase (pkt : VPacket) : Int := strength_to_phase (complementPkt pkt).strength

/-- Closed form of `ingest`: the `state_id` error branch is unreachable and
the returned triple is the evident update. -/
theorem ingest_eq (c : VSriYantraCore) (pkt : VPacket) :
    VSriYantraCore.ingest c pkt = .ok
      ({ c with
          lattice := (c.lattice.add (ingOct c pkt)).1
          last_state_id := (ingOct c pkt - 1) * 6 + ingPhase pkt
          bindu_active := (c.lattice.add (ingOct c pkt)).1.axis_ready
          trail := if c.max_trail < ((c.trail ++ [trailLabel (ingOct c pkt) (ingPhase pkt)]).length : Int)
                   then (c.trail ++ [trailLabel (ingOct c pkt) (ingPhase pkt)]).drop 1
                   else c.trail ++ [trailLabel (ingOct c pkt) (ingPhase pkt)]
          layer_counts := dictSet c.layer_counts (VMeruGravity.layer (ingOct c pkt))
            ((dictGet c.layer_counts (VMeruGravity.layer (ingOct c pkt))).getD 0 + 1) },
       complementPkt pkt,
       { accepted := true
         layer := VMeruGravity.layer (ingOct c pkt)
         octave := ingOct c pkt
         phase := ingPhase pkt
         state_id := (ingOct c pkt - 1) * 6 + ingPhase pkt
         crystallized_face := (c.lattice.add (ingOct c pkt)).2
         bindu_active := (c.lattice.add (ingOct c pkt)).1.axis_ready
         note := ingNote c pkt }) := by
  unfold VSriYantraCore.ingest
  dsimp only
  rw [ingest_state_id_ok c pkt]
  rfl

/-- C7: `ingest` is total: for every engine state and every packet it
returns (never raises), with `accepted = true`, and the working octave and
phase passed to `state_id` are pre-clamped to [1,7] and [1,6], so the
`InvalidRange` (`ValueError`) branch of `state_id` is unreachable from
`ingest`. -/
theorem ingest_total_C7 :
    ∀ (c : VSriYantraCore) (pkt : VPacket),
      ∃ out, VSriYantraCore.ingest c pkt = .ok out ∧
        out.2.2.accepted = true ∧
        1 ≤ out.2.2.octave ∧ out.2.2.octave ≤ 7 ∧
        1 ≤ out.2.2.phase ∧ out.2.2.phase ≤ 6 := by
  intro c pkt
  have hoct := finalOct_bounds c pkt
  have hph := strength_to_phase_bounds (complementPkt pkt).strength
  rw [ingest_eq c pkt]
  exact ⟨_, rfl, rfl, hoct.1, hoct.2, hph.1, hph.2⟩

/-! ## String-prefix helpers -/

/-- A list is a (boolean) prefix of itself followed by anything. -/
theorem isPrefixOf_append_self (p t : List Char) : p.isPrefixOf (p ++ t) = true := by
  induction p with
  | nil => cases t <;> rfl
  | cons a p ih => simp [List.isPrefixOf, ih]

/-- A string starts with itself followed by anything. -/
theorem pyStartsWith_append_self (p t : String) : pyStartsWith (p ++ t) p = true := by
  unfold pyStartsWith
  rw [String.data_append]
  exact isPrefixOf_append_self p.data t.data

/-- To show a string starts with `p` it is enough to split its data. -/
theorem pyStartsWith_of_data (s p : String) (t : List Char)
    (h : s.data = p.data ++ t) : pyStartsWith s p = true := by
  unfold pyStartsWith
  rw [h]
  exact isPrefixOf_append_self _ _

/-! ## Behaviour of the shadow override (claim C4) -/

/-- The complement step never changes a supplied shadow value. -/
theorem complementPkt_shadow_of_some (pkt : VPacket) (s : ℚ) (h : pkt.shadow = some s) :
    (complementPkt pkt).shadow = some s := by
  rcases hco : pkt.coherence with _ | co
  · simp [complementPkt, h, hco]
  · simp [complementPkt, h, hco]

/-- With a heavy clamped shadow and an intended octave above 2 the shadow
step drops to octave 1 with a SHADOW_DROP note. -/
theorem shadowOctNote_fires (octIn : Int) (s : ℚ)
    (hs : 3/4 ≤ clampQ s 0 1) (ho : 2 < octIn) :
    shadowOctNote octIn (some s) =
      (1, "SHADOW_DROP(" ++ fmt2 (clampQ s 0 1) ++ ")->BASE") := by
  unfold shadowOctNote
  dsimp only
  rw [if_pos ⟨hs, ho⟩]

/-- The gravity gate never rejects octave 1 (it is BASE, not APEX). -/
theorem postGravity_base_one (g : VMeruGravity) (l : VFaceLattice) (note : String) :
    postGravity g l (1, note) = (1, note) := by
  unfold postGravity VMeruGravity.gravityDecide
  dsimp only
  rw [show VMeruGravity.layer 1 = ("BASE") from by decide]
  rw [if_neg (show ¬(("BASE" : String) = ("APEX") ∧
    l.fill_level 1 + l.fill_level 2 < g.base_threshold) from
      fun hh => absurd hh.1 (by decide))]
  rfl

/-- C4: any packet with a supplied shadow that clamps to at least 0.75 whose
resolved octave is above 2 is forced to octave 1, with a note starting with
SHADOW_DROP, whatever the lattice fill state. -/
theorem shadow_override_C4 :
    ∀ (c : VSriYantraCore) (pkt : VPacket) (s : ℚ) out,
      pkt.shadow = some s → 3/4 ≤ clampQ s 0 1 → 2 < resolve_octave pkt →
      VSriYantraCore.ingest c pkt = .ok out →
      out.2.2.octave = 1 ∧ pyStartsWith out.2.2.note ("SHADOW_DROP") = true := by
  intro c pkt s out hsh hs ho hok
  rw [ingest_eq c pkt] at hok
  have hout := (Except.ok.injEq _ _).mp hok
  have hoct : ingOct c pkt = 1 := by
    unfold ingOct
    rw [complementPkt_shadow_of_some pkt s hsh, shadowOctNote_fires _ _ hs ho,
        postGravity_base_one]
  have hnote : ingNote c pkt = "SHADOW_DROP(" ++ fmt2 (clampQ s 0 1) ++ ")->BASE" := by
    unfold ingNote
    rw [complementPkt_shadow_of_some pkt s hsh, shadowOctNote_fires _ _ hs ho,
        postGravity_base_one]
  constructor
  · rw [← hout]
    exact hoct
  · rw [← hout]
    show pyStartsWith (ingNote c pkt) ("SHADOW_DROP") = true
    apply pyStartsWith_of_data _ _
      (Char.ofNat 40 :: ((fmt2 (clampQ s 0 1)).data ++ (")->BASE" : String).data))
    rw [hnote, String.data_append, String.data_append]
    rw [show ("SHADOW_DROP(" : String).data =
      ("SHADOW_DROP" : String).data ++ [Char.ofNat 40] from by decide]
    simp [List.append_assoc]

/-- Witness for C4: a packet aimed at octave 7 with shadow 0.9 on a fresh
engine is dropped to octave 1 with a SHADOW_DROP note. -/
theorem shadow_override_C4_witness :
    ∃ out, VSriYantraCore.ingest (VSriYantraCore.init 6 8)
        { content := "x", octave := some 7, strength := 9/10, shadow := some (9/10) } = .ok out ∧
      out.2.2.octave = 1 ∧ pyStartsWith out.2.2.note ("SHADOW_DROP") = true := by
  refine ⟨_, ingest_eq _ _, ?_⟩
  exact shadow_override_C4 (VSriYantraCore.init 6 8)
    { content := "x", octave := some 7, strength := 9/10, shadow := some (9/10) }
    (9/10) _ rfl (by with_unfolding_all decide) (by with_unfolding_all decide)
    (ingest_eq _ _)

/-! ## The gravity gate inside ingest (claim C3) -/

/-- Counterexample to C3 as stated: on a fresh engine (base mass 0 < 6) a
packet resolving to APEX octave 7 but carrying shadow 0.9 is indeed returned
as layer BASE, octave 1 — but its note starts with SHADOW_DROP, not
GRAVITY_REJECT, because the shadow override moves it to octave 1 before the
gravity gate runs, and octave 1 is never gravity-rejected. -/
theorem gravity_reject_C3_counterexample :
    resolve_octave { content := "x", octave := some 7, strength := 9/10, shadow := some (9/10) } = 7 ∧
    (VSriYantraCore.init 6 8).lattice.fill_level 1 +
      (VSriYantraCore.init 6 8).lattice.fill_level 2 <
      (VSriYantraCore.init 6 8).gravity.base_threshold ∧
    (VSriYantraCore.ingest (VSriYantraCore.init 6 8)
        { content := "x", octave := some 7, strength := 9/10, shadow := some (9/10) }).map
      (fun out => pyStartsWith out.2.2.note ("GRAVITY_REJECT")) = .ok false := by
  with_unfolding_all decide

/-- Whether the shadow override can fire for this packet: the packet's
shadow after the complement step exists and clamps to at least 0.75. -/
def shadowHeavy (pkt : VPacket) : Bool :=
  match (complementPkt pkt).shadow with
  | some s0 => if 3/4 ≤ clampQ s0 0 1 then true else false
  | none => false

/-- If the shadow override cannot fire, the shadow step is the identity. -/
theorem shadowOctNote_no_fire (pkt : VPacket) (octIn : Int)
    (h : shadowHeavy pkt = false) :
    shadowOctNote octIn (complementPkt pkt).shadow = (octIn, "OK") := by
  unfold shadowHeavy at h
  unfold shadowOctNote
  cases hsh : (complementPkt pkt).shadow with
  | none => rfl
  | some s0 =>
    rw [hsh] at h
    dsimp only at h
    dsimp only
    rw [if_neg]
    intro hh
    rw [if_pos hh.1] at h
    cases h

/-- An APEX octave with insufficient base mass is gravity-rejected to 1. -/
theorem postGravity_rejects (g : VMeruGravity) (l : VFaceLattice) (oct : Int)
    (note : String) (hA : VMeruGravity.layer oct = ("APEX"))
    (hm : l.fill_level 1 + l.fill_level 2 < g.base_threshold) :
    postGravity g l (oct, note) =
      (1, "GRAVITY_REJECT: base_mass=" ++ pyStrOfInt (l.fill_level 1 + l.fill_level 2) ++
        " < " ++ pyStrOfInt g.base_threshold ++ ", redirect->Matter") := by
  unfold postGravity VMeruGravity.gravityDecide
  dsimp only
  rw [hA]
  rw [if_pos (show ("APEX" : String) = ("APEX") ∧
    l.fill_level 1 + l.fill_level 2 < g.base_threshold from ⟨rfl, hm⟩)]
  rfl

/-- C3 (amended): for a packet whose resolved octave is APEX (6 or 7), if
the base mass is below the threshold at ingest time and the shadow override
cannot fire (no shadow, or clamped shadow below 0.75), ingest returns layer
BASE, octave 1 and a note starting with GRAVITY_REJECT. -/
theorem gravity_reject_C3 :
    ∀ (c : VSriYantraCore) (pkt : VPacket) out,
      resolve_octave pkt = 6 ∨ resolve_octave pkt = 7 →
      c.lattice.fill_level 1 + c.lattice.fill_level 2 < c.gravity.base_threshold →
      shadowHeavy pkt = false →
      VSriYantraCore.ingest c pkt = .ok out →
      out.2.2.layer = ("BASE") ∧ out.2.2.octave = 1 ∧
      pyStartsWith out.2.2.note ("GRAVITY_REJECT") = true := by
  intro c pkt out hA hm hsh hok
  rw [ingest_eq c pkt] at hok
  have hout := (Except.ok.injEq _ _).mp hok
  have hlayA : VMeruGravity.layer (resolve_octave pkt) = ("APEX") := by
    rcases hA with h | h <;> rw [h] <;> decide
  have hpg : postGravity c.gravity c.lattice
      (shadowOctNote (resolve_octave pkt) (complementPkt pkt).shadow) =
      (1, "GRAVITY_REJECT: base_mass=" ++
        pyStrOfInt (c.lattice.fill_level 1 + c.lattice.fill_level 2) ++
        " < " ++ pyStrOfInt c.gravity.base_threshold ++ ", redirect->Matter") := by
    rw [shadowOctNote_no_fire pkt (resolve_octave pkt) hsh]
    exact postGravity_rejects _ _ _ _ hlayA hm
  have hoct : ingOct c pkt = 1 := by
    unfold ingOct
    rw [hpg]
  have hnote : ingNote c pkt = "GRAVITY_REJECT: base_mass=" ++
      pyStrOfInt (c.lattice.fill_level 1 + c.lattice.fill_level 2) ++
      " < " ++ pyStrOfInt c.gravity.base_threshold ++ ", redirect->Matter" := by
    unfold ingNote
    rw [hpg]
  refine ⟨?_, ?_, ?_⟩
  · rw [← hout]
    show VMeruGravity.layer (ingOct c pkt) = ("BASE")
    rw [hoct]
    decide
  · rw [← hout]
    exact hoct
  · rw [← hout]
    show pyStartsWith (ingNote c pkt) ("GRAVITY_REJECT") = true
    apply pyStartsWith_of_data _ _
      ((": base_mass=" : String).data ++
        (pyStrOfInt (c.lattice.fill_level 1 + c.lattice.fill_level 2)).data ++
        (" < " : String).data ++ (pyStrOfInt c.gravity.base_threshold).data ++
        (", redirect->Matter" : String).data)
    rw [hnote]
    rw [String.data_append, String.data_append, String.data_append, String.data_append]
    rw [show ("GRAVITY_REJECT: base_mass=" : String).data =
      ("GRAVITY_REJECT" : String).data ++ (": base_mass=" : String).data from by decide]
    simp [List.append_assoc]

/-- Witness for C3 (amended): a clean octave-7 packet on a fresh engine is
gravity-rejected with the GRAVITY_REJECT note. -/
theorem gravity_reject_C3_witness :
    ∃ out, VSriYantraCore.ingest (VSriYantraCore.init 6 8)
        { content := "x", octave := some 7, strength := 9/10 } = .ok out ∧
      out.2.2.layer = ("BASE") ∧ out.2.2.octave = 1 ∧
      pyStartsWith out.2.2.note ("GRAVITY_REJECT") = true := by
  refine ⟨_, ingest_eq _ _, ?_⟩
  exact gravity_reject_C3 (VSriYantraCore.init 6 8)
    { content := "x", octave := some 7, strength := 9/10 } _
    (by with_unfolding_all decide) (by with_unfolding_all decide)
    (by with_unfolding_all decide) (ingest_eq _ _)

/-! ## The packet mutation performed by ingest (claim C10) -/

/-- Complement step when only coherence is supplied. -/
theorem complementPkt_coherence_only (pkt : VPacket) (co : ℚ)
    (hco : pkt.coherence = some co) (hsh : pkt.shadow = none) :
    complementPkt pkt = { pkt with shadow := some (1 - clampQ co 0 1) } := by
  simp [complementPkt, hco, hsh]

/-- Complement step when only shadow is supplied. -/
theorem complementPkt_shadow_only (pkt : VPacket) (sh : ℚ)
    (hsh : pkt.shadow = some sh) (hco : pkt.coherence = none) :
    complementPkt pkt = { pkt with coherence := some (1 - clampQ sh 0 1) } := by
  simp [complementPkt, hco, hsh]

/-- C10: ingest writes the derived complement back into the caller's packet:
if exactly one of coherence/shadow is supplied, the returned (mutated)
packet carries the other as `1 − clamp(value)`, all other fields unchanged,
and is therefore different from the input packet. -/
theorem ingest_mutates_packet_C10 :
    (∀ (c : VSriYantraCore) (pkt : VPacket) (co : ℚ) out,
      pkt.coherence = some co → pkt.shadow = none →
      VSriYantraCore.ingest c pkt = .ok out →
      out.2.1 = { pkt with shadow := some (1 - clampQ co 0 1) } ∧ out.2.1 ≠ pkt) ∧
    (∀ (c : VSriYantraCore) (pkt : VPacket) (sh : ℚ) out,
      pkt.shadow = some sh → pkt.coherence = none →
      VSriYantraCore.ingest c pkt = .ok out →
      out.2.1 = { pkt with coherence := some (1 - clampQ sh 0 1) } ∧ out.2.1 ≠ pkt) := by
  constructor
  · intro c pkt co out hco hsh hok
    rw [ingest_eq c pkt] at hok
    have hout := (Except.ok.injEq _ _).mp hok
    have hpk : out.2.1 = complementPkt pkt := by rw [← hout]
    rw [hpk, complementPkt_coherence_only pkt co hco hsh]
    refine ⟨rfl, ?_⟩
    intro heq
    have := congrArg VPacket.shadow heq
    rw [hsh] at this
    simp at this
  · intro c pkt sh out hsh hco hok
    rw [ingest_eq c pkt] at hok
    have hout := (Except.ok.injEq _ _).mp hok
    have hpk : out.2.1 = complementPkt pkt := by rw [← hout]
    rw [hpk, complementPkt_shadow_only pkt sh hsh hco]
    refine ⟨rfl, ?_⟩
    intro heq
    have := congrArg VPacket.coherence heq
    rw [hco] at this
    simp at this

/-- Witness for C10: concrete packets with exactly one of the two scores. -/
theorem ingest_mutates_packet_C10_witness :
    (∃ out, VSriYantraCore.ingest (VSriYantraCore.init 6 8)
        { content := "a", octave := some 3, strength := 1/2, coherence := some (1/4) } = .ok out ∧
      out.2.1 = { content := "a", octave := some 3, strength := 1/2, coherence := some (1/4), shadow := some (3/4) } ∧
      out.2.1 ≠ { content := "a", octave := some 3, strength := 1/2, coherence := some (1/4) }) := by
  refine ⟨_, ingest_eq _ _, ?_⟩
  have h := ingest_mutates_packet_C10.1 (VSriYantraCore.init 6 8)
    { content := "a", octave := some 3, strength := 1/2, coherence := some (1/4) }
    (1/4) _ rfl rfl (ingest_eq _ _)
  constructor
  · rw [h.1]
    have : (1 : ℚ) - clampQ (1/4) 0 1 = 3/4 := by with_unfolding_all decide
    rw [this]
  · exact h.2

/-! ## Dict and fill-level lemmas -/

/-- Lookup after assignment. -/
theorem dictGet_dictSet (d : List (Int × Int)) (k k' v : Int) :
    dictGet (dictSet d k v) k' = if k' = k then some v else dictGet d k' := by
  induction d with
  | nil =>
    simp only [dictSet, dictGet, beq_iff_eq]
    by_cases h : k' = k
    · rw [if_pos h.symm, if_pos h]
    · rw [if_neg (fun hh => h hh.symm), if_neg h]
  | cons kv t ih =>
    simp only [dictSet, beq_iff_eq]
    by_cases h1 : kv.1 = k
    · rw [if_pos h1]
      simp only [dictGet, beq_iff_eq]
      by_cases h2 : k' = k
      · rw [if_pos (h1.trans h2.symm), if_pos h2]
      · have hne : kv.1 ≠ k' := by rw [h1]; exact fun hh => h2 hh.symm
        rw [if_neg hne, if_neg h2, if_neg hne]
    · rw [if_neg h1]
      simp only [dictGet, beq_iff_eq]
      by_cases h2 : kv.1 = k'
      · have hk : ¬(k' = k) := fun hh => h1 (h2.trans hh)
        rw [if_pos h2, if_neg hk, if_pos h2]
      · rw [if_neg h2, ih]
        by_cases h3 : k' = k
        · rw [if_pos h3, if_pos h3]
        · rw [if_neg h3, if_neg h3, if_neg h2]

/-- Fill level of the octave just added. -/
theorem fill_level_add_self (l : VFaceLattice) (o : Int) :
    ((l.add o).1).fill_level o =
      if l.fill_level o < 6 then l.fill_level o + 1 else l.fill_level o := by
  unfold VFaceLattice.add PHASES
  dsimp only
  split
  · unfold VFaceLattice.fill_level
    dsimp only
    rw [dictGet_dictSet]
    simp
  · simp_all

/-- Fill level of a different octave is untouched by `add`. -/
theorem fill_level_add_other (l : VFaceLattice) (o o' : Int) (h : o' ≠ o) :
    ((l.add o).1).fill_level o' = l.fill_level o' := by
  unfold VFaceLattice.add PHASES
  dsimp only
  split
  · unfold VFaceLattice.fill_level
    dsimp only
    rw [dictGet_dictSet]
    simp [h]
  · rfl

/-- The crystallization flag fires exactly when the fill level was 5. -/
theorem add_snd_iff (l : VFaceLattice) (o : Int) :
    (l.add o).2 = true ↔ l.fill_level o = 5 := by
  unfold VFaceLattice.add PHASES
  dsimp only
  split
  · next h => constructor
              · intro hb
                have := beq_iff_eq.mp hb
                omega
              · intro h5
                exact beq_iff_eq.mpr (by omega)
  · next h => constructor
              · intro hb; cases hb
              · intro h5; omega

/-! ## Lattice saturation along a run of adds (claim C5) -/

/-- The boolean results of a sequence of `add` calls, in order. -/
def addResults (l : VFaceLattice) : List Int → List Bool
  | [] => []
  | x :: os => (l.add x).2 :: addResults (l.add x).1 os

/-- Fill level after a run of adds: saturating count. -/
theorem fill_applyAdds_aux :
    ∀ (os : List Int) (l : VFaceLattice) (o : Int) (k : Nat),
      l.fill_level o = min ((k : Int)) 6 →
      (applyAdds l os).fill_level o = min ((k + os.count o : Int)) 6 := by
  intro os
  induction os with
  | nil => intro l o k h; simpa using h
  | cons x os ih =>
    intro l o k h
    show (applyAdds (l.add x).1 os).fill_level o = _
    by_cases hx : x = o
    · subst hx
      have hstep : ((l.add x).1).fill_level x = min (((k + 1 : Nat) : Int)) 6 := by
        rw [fill_level_add_self, h]
        push_cast
        split
        · omega
        · omega
      rw [ih _ _ _ hstep]
      have : (x :: os).count x = os.count x + 1 := by simp
      rw [this]
      push_cast
      omega
    · have hstep : ((l.add x).1).fill_level o = min ((k : Int)) 6 := by
        rw [fill_level_add_other l x o (fun hh => hx hh.symm)]
        exact h
      rw [ih _ _ _ hstep]
      have : (x :: os).count o = os.count o := by simp [List.count_cons, hx]
      rw [this]

/-- Number of crystallization events for octave `o` along a run of adds,
starting from a fill level `min k 6`. -/
theorem addResults_true_count_aux :
    ∀ (os : List Int) (l : VFaceLattice) (o : Int) (k : Nat),
      l.fill_level o = min ((k : Int)) 6 →
      ((addResults l os).zip os).countP (fun bo => bo.1 && (bo.2 == o)) =
        (if 6 ≤ k then 0 else if 6 ≤ k + os.count o then 1 else 0) := by
  intro os
  induction os with
  | nil =>
    intro l o k h
    simp only [addResults, List.zip_nil_right, List.countP_nil, List.count_nil]
    split
    · rfl
    · rw [if_neg (by omega)]
  | cons x os ih =>
    intro l o k h
    simp only [addResults, List.zip_cons_cons, List.countP_cons]
    by_cases hx : x = o
    · subst hx
      have hcnt : (x :: os).count x = os.count x + 1 := by simp
      have hstep : ((l.add x).1).fill_level x = min (((k + 1 : Nat) : Int)) 6 := by
        rw [fill_level_add_self, h]
        push_cast
        split
        · omega
        · omega
      rw [ih _ _ _ hstep, hcnt]
      by_cases h5 : k = 5
      · have htrue : (l.add x).2 = true := by
          rw [add_snd_iff, h]
          omega
        rw [htrue]
        simp only [beq_self_eq_true, Bool.true_and, if_true]
        split_ifs <;> omega
      · have hfalse : (l.add x).2 = false := by
          rw [Bool.eq_false_iff]
          intro hb
          have := (add_snd_iff l x).mp hb
          rw [h] at this
          omega
        rw [hfalse]
        simp only [Bool.false_and, Bool.false_eq_true, if_false]
        split_ifs <;> omega
    · have hne : (x == o) = false := beq_eq_false_iff_ne.mpr hx
      have hcnt : (x :: os).count o = os.count o := by simp [List.count_cons, hx]
      have hstep : ((l.add x).1).fill_level o = min ((k : Int)) 6 := by
        rw [fill_level_add_other l x o (fun hh => hx hh.symm)]
        exact h
      rw [ih _ _ _ hstep, hcnt, hne]
      simp only [Bool.and_false, Bool.false_eq_true, if_false]
      omega

/-- A fresh lattice has fill 0 on every octave 1..7. -/
theorem initL_fill (o : Int) (h1 : 1 ≤ o) (h7 : o ≤ 7) :
    VFaceLattice.initL.fill_level o = 0 := by
  interval_cases o <;> decide

/-- C5 (amended): along any lifetime made of `add` calls only (no restore),
the fill level of octave `o` is the saturating count `min(#adds of o, 6)`
(hence always in [0,6]), an `add o` call reports crystallization exactly
when five earlier adds of `o` precede it (the 5 → 6 edge), and the total
number of crystallization reports for `o` is 1 when at least six adds of
`o` occur and 0 otherwise — in particular it is never 2. -/
theorem lattice_saturation_C5 :
    ∀ (os : List Int) (o : Int), (∀ x ∈ os, 1 ≤ x ∧ x ≤ 7) → 1 ≤ o → o ≤ 7 →
      ((applyAdds VFaceLattice.initL os).fill_level o = min ((os.count o : Int)) 6 ∧
       0 ≤ (applyAdds VFaceLattice.initL os).fill_level o ∧
       (applyAdds VFaceLattice.initL os).fill_level o ≤ 6) ∧
      (∀ a b, os = a ++ o :: b →
        (((applyAdds VFaceLattice.initL a).add o).2 = true ↔ a.count o = 5)) ∧
      ((addResults VFaceLattice.initL os).zip os).countP
          (fun bo => bo.1 && (bo.2 == o)) =
        (if 6 ≤ os.count o then 1 else 0) := by
  intro os o _hvalid h1 h7
  have hinit : VFaceLattice.initL.fill_level o = min ((0 : Nat) : Int) 6 := by
    rw [initL_fill o h1 h7]
    decide
  have hfill := fill_applyAdds_aux os VFaceLattice.initL o 0 hinit
  refine ⟨⟨?_, ?_, ?_⟩, ?_, ?_⟩
  · rw [hfill]
    push_cast
    omega
  · rw [hfill]
    push_cast
    omega
  · rw [hfill]
    push_cast
    omega
  · intro a b _hsplit
    have hfa := fill_applyAdds_aux a VFaceLattice.initL o 0 hinit
    rw [add_snd_iff, hfa]
    have : (0 : Int) ≤ (a.count o : Int) := by positivity
    constructor
    · intro hh
      omega
    · intro hh
      rw [hh]
      decide
  · have := addResults_true_count_aux os VFaceLattice.initL o 0 hinit
    rw [this]
    simp

/-- Witness for C5 (amended): six adds of octave 1; fill ends at 6, the
sixth add is the unique crystallization. -/
theorem lattice_saturation_C5_witness :
    (applyAdds VFaceLattice.initL [1, 1, 1, 1, 1, 1]).fill_level 1 = min ((6 : Nat) : Int) 6 ∧
    (((applyAdds VFaceLattice.initL [1, 1, 1, 1, 1]).add 1).2 = true ↔
      ([1, 1, 1, 1, 1] : List Int).count 1 = 5) ∧
    ((addResults VFaceLattice.initL [1, 1, 1, 1, 1, 1]).zip [1, 1, 1, 1, 1, 1]).countP
        (fun bo => bo.1 && (bo.2 == 1)) = 1 := by
  have h := lattice_saturation_C5 [1, 1, 1, 1, 1, 1] 1 (by decide) (by decide) (by decide)
  refine ⟨?_, ?_, ?_⟩
  · rw [h.1.1]
    decide
  · exact h.2.1 [1, 1, 1, 1, 1] [] rfl
  · have h3 := h.2.2
    rw [if_pos (by decide)] at h3
    exact h3

/-- Counterexample to C5 as stated: over a lifetime that includes an
`import_seed` (which restores octave 1's fill back to 5), `add(1)` reports
crystallization a second time — the 6th ingest of octave 1 crystallizes it,
and after importing a seed with fill(1)=5 the next ingest crystallizes it
again. -/
theorem lattice_saturation_C5_counterexample :
    (VSriYantraCore.ingest
        (VSriYantraCore.runOps (VSriYantraCore.init 6 8)
          (List.replicate 5 (VOp.ing { content := "x", octave := some 1, strength := 1/2 })))
        { content := "x", octave := some 1, strength := 1/2 }).map
      (fun out => (out.2.2.octave, out.2.2.crystallized_face)) = .ok (1, true) ∧
    (VSriYantraCore.ingest
        (VSriYantraCore.runOps (VSriYantraCore.init 6 8)
          (List.replicate 6 (VOp.ing { content := "x", octave := some 1, strength := 1/2 }) ++
            [VOp.imp 0 (some (Json.jobj [(("lattice"), Json.jobj [(("1"), Json.jint 5)])]))]))
        { content := "x", octave := some 1, strength := 1/2 }).map
      (fun out => (out.2.2.octave, out.2.2.crystallized_face)) = .ok (1, true) := by
  with_unfolding_all decide

/-! ## Convergence flag (claim C2) -/

/-- The axis criterion in terms of fill levels. -/
theorem axis_ready_iff (l : VFaceLattice) :
    l.axis_ready = true ↔
      (l.fill_level 1 = 6 ∧ l.fill_level 4 = 6 ∧ l.fill_level 7 = 6) := by
  unfold VFaceLattice.axis_ready VFaceLattice.is_crystal PHASES
  simp [Bool.and_eq_true, beq_iff_eq, and_assoc]

/-- A saturated `add` call does not change the lattice. -/
theorem add_saturated (l : VFaceLattice) (o : Int) (h : ¬ l.fill_level o < 6) :
    (l.add o).1 = l := by
  unfold VFaceLattice.add PHASES
  dsimp only
  rw [if_neg h]

/-- `add` never destroys axis readiness. -/
theorem axis_ready_mono (l : VFaceLattice) (o : Int) (h : l.axis_ready = true) :
    ((l.add o).1).axis_ready = true := by
  rcases (axis_ready_iff l).mp h with ⟨h1, h4, h7⟩
  by_cases ho : l.fill_level o < 6
  · have hne1 : (1 : Int) ≠ o := fun hh => by rw [← hh] at ho; omega
    have hne4 : (4 : Int) ≠ o := fun hh => by rw [← hh] at ho; omega
    have hne7 : (7 : Int) ≠ o := fun hh => by rw [← hh] at ho; omega
    refine (axis_ready_iff _).mpr ⟨?_, ?_, ?_⟩
    · rw [fill_level_add_other l o 1 hne1]; exact h1
    · rw [fill_level_add_other l o 4 hne4]; exact h4
    · rw [fill_level_add_other l o 7 hne7]; exact h7
  · rw [add_saturated l o ho]
    exact h

/-- Bindu is monotone along ingest-only runs. -/
theorem bindu_mono_aux :
    ∀ (ps : List VPacket) (c : VSriYantraCore),
      c.bindu_active = true → c.lattice.axis_ready = true →
      (execIngests c ps).bindu_active = true ∧
      (execIngests c ps).lattice.axis_ready = true := by
  intro ps
  induction ps with
  | nil => intro c hb ha; exact ⟨hb, ha⟩
  | cons p ps ih =>
    intro c hb ha
    show (execIngests (VSriYantraCore.step c (.ing p)) ps).bindu_active = true ∧
      (execIngests (VSriYantraCore.step c (.ing p)) ps).lattice.axis_ready = true
    have hstep : VSriYantraCore.step c (.ing p) =
        ({ c with
            lattice := (c.lattice.add (ingOct c p)).1
            last_state_id := (ingOct c p - 1) * 6 + ingPhase p
            bindu_active := (c.lattice.add (ingOct c p)).1.axis_ready
            trail := if c.max_trail < ((c.trail ++ [trailLabel (ingOct c p) (ingPhase p)]).length : Int)
                     then (c.trail ++ [trailLabel (ingOct c p) (ingPhase p)]).drop 1
                     else c.trail ++ [trailLabel (ingOct c p) (ingPhase p)]
            layer_counts := dictSet c.layer_counts (VMeruGravity.layer (ingOct c p))
              ((dictGet c.layer_counts (VMeruGravity.layer (ingOct c p))).getD 0 + 1) }) := by
      unfold VSriYantraCore.step
      dsimp only
      rw [ingest_eq c p]
    rw [hstep]
    refine ih _ ?_ ?_
    · show (c.lattice.add (ingOct c p)).1.axis_ready = true
      exact axis_ready_mono c.lattice (ingOct c p) ha
    · show (c.lattice.add (ingOct c p)).1.axis_ready = true
      exact axis_ready_mono c.lattice (ingOct c p) ha

/-- C2 (amended): `axisReady()` is true iff fill(1)=fill(4)=fill(7)=6, and
along any sequence of `ingest` operations, once `bindu_active` is true (and
in sync with the lattice, as it always is on reachable states) it never
becomes false; `import_seed`, by contrast, recomputes the flag from the
imported lattice and can reset it (see the counterexample). -/
theorem bindu_monotone_C2 :
    (∀ l : VFaceLattice, l.axis_ready = true ↔
      (l.fill_level 1 = 6 ∧ l.fill_level 4 = 6 ∧ l.fill_level 7 = 6)) ∧
    (∀ (c : VSriYantraCore) (ps : List VPacket),
      c.bindu_active = true → c.lattice.axis_ready = true →
      (execIngests c ps).bindu_active = true) := by
  refine ⟨axis_ready_iff, ?_⟩
  intro c ps hb ha
  exact (bindu_mono_aux ps c hb ha).1

/-- Witness for C2 (amended): an engine whose lattice was imported with
octaves 1, 4, 7 full stays bindu-active across a further ingest. -/
theorem bindu_monotone_C2_witness :
    (execIngests
      (VSriYantraCore.step (VSriYantraCore.init 6 8)
        (VOp.imp 0 (some (Json.jobj [(("lattice"),
          Json.jobj [(("1"), Json.jint 6), (("4"), Json.jint 6), (("7"), Json.jint 6)])]))))
      [{ content := "x", octave := some 2, strength := 1/2 }]).bindu_active = true := by
  apply bindu_monotone_C2.2
  · with_unfolding_all decide
  · with_unfolding_all decide

/-- Counterexample to C2 as stated: over the full operation set the flag is
not monotone — import a seed with octaves 1, 4, 7 full (bindu becomes true),
then import an empty seed: `import_seed` recomputes bindu from the restored
all-zero lattice and it becomes false again. -/
theorem bindu_monotone_C2_counterexample :
    (VSriYantraCore.runOps (VSriYantraCore.init 6 8)
      [VOp.imp 0 (some (Json.jobj [(("lattice"),
        Json.jobj [(("1"), Json.jint 6), (("4"), Json.jint 6), (("7"), Json.jint 6)])]))]).bindu_active = true ∧
    (VSriYantraCore.runOps (VSriYantraCore.init 6 8)
      [VOp.imp 0 (some (Json.jobj [(("lattice"),
        Json.jobj [(("1"), Json.jint 6), (("4"), Json.jint 6), (("7"), Json.jint 6)])])),
       VOp.imp 0 (some (Json.jobj []))]).bindu_active = false := by
  constructor
  · with_unfolding_all decide
  · with_unfolding_all decide

/-! ## Trail lemmas (claim C9) -/

/-- Keeping the last `mt` entries of a list short enough is the identity. -/
theorem keepLast_of_len_le (mt : Int) (l : List String)
    (h : (l.length : Int) ≤ mt) : keepLast mt l = l := by
  unfold keepLast
  have : l.length - mt.toNat = 0 := by omega
  rw [this]
  rfl

/-- Dropping an initial segment does not change the kept tail. -/
theorem keepLast_drop (mt : Int) (l : List String) (j : Nat)
    (h : j + mt.toNat ≤ l.length) : keepLast mt (l.drop j) = keepLast mt l := by
  unfold keepLast
  rw [List.drop_drop, List.length_drop]
  have : j + (l.length - j - mt.toNat) = l.length - mt.toNat := by omega
  rw [this]

/-- Truncating, appending, truncating again is the same as truncating once. -/
theorem keepLast_append_keepLast (mt : Int) (X Y : List String) :
    keepLast mt (keepLast mt X ++ Y) = keepLast mt (X ++ Y) := by
  by_cases h : (X.length : Int) ≤ mt
  · rw [keepLast_of_len_le mt X h]
  · have hd : X.length - mt.toNat ≤ X.length := by omega
    have h1 : keepLast mt X ++ Y = (X ++ Y).drop (X.length - mt.toNat) := by
      unfold keepLast
      rw [List.drop_append_of_le_length hd]
    rw [h1, keepLast_drop]
    rw [List.length_append]
    omega

/-- Negative-index slicing agrees with tail truncation whenever `mt ≥ 1`. -/
theorem pyTailSlice_eq_keepLast (l : List String) (mt : Int) (h : 1 ≤ mt) :
    pyTailSlice l mt = keepLast mt l := by
  unfold pyTailSlice keepLast
  dsimp only
  rw [if_pos (by omega)]
  have : (max 0 ((l.length : Int) + -mt)).toNat = l.length - mt.toNat := by omega
  rw [this]

/-- The step of one ingest, projected onto `max_trail` and `trail`. -/
theorem step_ing_proj (c : VSriYantraCore) (p : VPacket) :
    (VSriYantraCore.step c (.ing p)).max_trail = c.max_trail ∧
    (VSriYantraCore.step c (.ing p)).trail =
      (if c.max_trail < ((c.trail ++ [trailLabel (ingOct c p) (ingPhase p)]).length : Int)
       then (c.trail ++ [trailLabel (ingOct c p) (ingPhase p)]).drop 1
       else c.trail ++ [trailLabel (ingOct c p) (ingPhase p)]) := by
  unfold VSriYantraCore.step
  dsimp only
  rw [ingest_eq c p]
  exact ⟨rfl, rfl⟩

/-- One ingest step turns the trail into the truncated appended trail. -/
theorem step_ing_trail_keepLast (c : VSriYantraCore) (p : VPacket)
    (h1 : 1 ≤ c.max_trail) (h : (c.trail.length : Int) ≤ c.max_trail) :
    (VSriYantraCore.step c (.ing p)).trail =
      keepLast c.max_trail (c.trail ++ [trailLabel (ingOct c p) (ingPhase p)]) := by
  rw [(step_ing_proj c p).2]
  split
  · next hlt =>
    rw [List.length_append] at hlt
    simp only [List.length_cons, List.length_nil] at hlt
    unfold keepLast
    rw [List.length_append]
    simp only [List.length_cons, List.length_nil]
    have : c.trail.length + (0 + 1) - c.max_trail.toNat = 1 := by omega
    rw [this]
  · next hge =>
    rw [List.length_append] at hge
    simp only [List.length_cons, List.length_nil] at hge
    rw [keepLast_of_len_le]
    rw [List.length_append]
    simp only [List.length_cons, List.length_nil]
    push_cast
    omega

/-- The trail-length bound is maintained by every operation (`mt ≥ 1`). -/
theorem step_trail_len (c : VSriYantraCore) (op : VOp)
    (h1 : 1 ≤ c.max_trail) (h : (c.trail.length : Int) ≤ c.max_trail) :
    ((VSriYantraCore.step c op).trail.length : Int) ≤ c.max_trail ∧
    (VSriYantraCore.step c op).max_trail = c.max_trail := by
  cases op with
  | ing p =>
    refine ⟨?_, (step_ing_proj c p).1⟩
    rw [step_ing_trail_keepLast c p h1 h]
    unfold keepLast
    rw [List.length_drop, List.length_append]
    simp only [List.length_cons, List.length_nil]
    omega
  | imp now payload =>
    show ((VSriYantraCore.importSeedTotal now c payload).trail.length : Int) ≤ c.max_trail ∧
      (VSriYantraCore.importSeedTotal now c payload).max_trail = c.max_trail
    unfold VSriYantraCore.importSeedTotal VSriYantraCore.importSeed
    cases hsj : VStateSeed.from_json now payload with
    | error e => exact ⟨h, rfl⟩
    | ok seed =>
      dsimp only
      refine ⟨?_, rfl⟩
      rw [pyTailSlice_eq_keepLast _ _ h1]
      unfold keepLast
      rw [List.length_drop]
      omega

/-- The trail-length invariant holds along any run of operations. -/
theorem runOps_trail_invariant :
    ∀ (ops : List VOp) (c : VSriYantraCore), 1 ≤ c.max_trail →
      (c.trail.length : Int) ≤ c.max_trail →
      (VSriYantraCore.runOps c ops).max_trail = c.max_trail ∧
      ((VSriYantraCore.runOps c ops).trail.length : Int) ≤ c.max_trail := by
  intro ops
  induction ops with
  | nil => intro c h1 h; exact ⟨rfl, h⟩
  | cons op ops ih =>
    intro c h1 h
    have hs := step_trail_len c op h1 h
    have := ih (VSriYantraCore.step c op) (by rw [hs.2]; exact h1) (by rw [hs.2]; exact hs.1)
    show (VSriYantraCore.runOps (VSriYantraCore.step c op) ops).max_trail = c.max_trail ∧ _
    rw [this.1, hs.2]
    exact ⟨rfl, by rw [hs.2] at this; exact this.2⟩

/-- Each ingest emits exactly one label. -/
theorem ingestLabels_cons (c : VSriYantraCore) (p : VPacket) (ps : List VPacket) :
    ingestLabels c (p :: ps) =
      trailLabel (ingOct c p) (ingPhase p) :: ingestLabels (VSriYantraCore.step c (.ing p)) ps := by
  show (match VSriYantraCore.ingest c p with
    | .ok out => trailLabel out.2.2.octave out.2.2.phase :: ingestLabels out.1 ps
    | .error _ => ingestLabels c ps) = _
  rw [ingest_eq c p]
  unfold VSriYantraCore.step
  dsimp only
  rw [ingest_eq c p]

/-- An ingest-only run emits one label per packet. -/
theorem ingestLabels_length (c : VSriYantraCore) (ps : List VPacket) :
    (ingestLabels c ps).length = ps.length := by
  induction ps generalizing c with
  | nil => rfl
  | cons p ps ih =>
    rw [ingestLabels_cons]
    simp only [List.length_cons]
    rw [ih]

/-- The trail after an ingest-only run is the truncation of the starting
trail followed by the emitted labels. -/
theorem execIngests_trail :
    ∀ (ps : List VPacket) (c : VSriYantraCore), 1 ≤ c.max_trail →
      (c.trail.length : Int) ≤ c.max_trail →
      (execIngests c ps).trail = keepLast c.max_trail (c.trail ++ ingestLabels c ps) := by
  intro ps
  induction ps with
  | nil =>
    intro c h1 h
    rw [show ingestLabels c ([] : List VPacket) = [] from rfl, List.append_nil]
    rw [keepLast_of_len_le _ _ h]
    rfl
  | cons p ps ih =>
    intro c h1 h
    have hs := step_trail_len c (.ing p) h1 h
    have hstep : execIngests c (p :: ps) = execIngests (VSriYantraCore.step c (.ing p)) ps := rfl
    rw [hstep]
    rw [ih (VSriYantraCore.step c (.ing p)) (by rw [hs.2]; exact h1)
        (by rw [hs.2]; exact hs.1)]
    rw [hs.2, step_ing_trail_keepLast c p h1 h, ingestLabels_cons]
    rw [keepLast_append_keepLast]
    rw [List.append_assoc]
    rfl

/-- C9 (amended): for every configured `max_trail ≥ 1` the trail length
never exceeds `max_trail` over any run of operations; each ingest appends
one "octave.phase" label at the end and evicts the oldest entries beyond
the cap (the trail is the truncation of the accumulated label stream); and
on a fresh engine with `max_trail = 8`, after 10 ingests the trail holds
exactly the labels of the 3rd through 10th ingestion, in order.  (For
`max_trail = 0` the bound fails — see the counterexample.) -/
theorem trail_fifo_C9 :
    (∀ (bt mt : Int) (ops : List VOp), 1 ≤ mt →
      ((VSriYantraCore.runOps (VSriYantraCore.init bt mt) ops).trail.length : Int) ≤ mt) ∧
    (∀ (c : VSriYantraCore) (ps : List VPacket), 1 ≤ c.max_trail →
      (c.trail.length : Int) ≤ c.max_trail →
      (execIngests c ps).trail = keepLast c.max_trail (c.trail ++ ingestLabels c ps)) ∧
    (∀ (bt : Int) (ps : List VPacket), ps.length = 10 →
      (execIngests (VSriYantraCore.init bt 8) ps).trail =
        (ingestLabels (VSriYantraCore.init bt 8) ps).drop 2) := by
  refine ⟨?_, fun c ps h1 h => execIngests_trail ps c h1 h, ?_⟩
  · intro bt mt ops hmt
    exact (runOps_trail_invariant ops (VSriYantraCore.init bt mt) hmt
      (by simp only [VSriYantraCore.init, List.length_nil]; omega)).2
  · intro bt ps hlen
    rw [execIngests_trail ps (VSriYantraCore.init bt 8)
      (by simp only [VSriYantraCore.init]; omega)
      (by simp only [VSriYantraCore.init, List.length_nil]; omega)]
    show keepLast 8 ([] ++ ingestLabels (VSriYantraCore.init bt 8) ps) = _
    rw [List.nil_append]
    unfold keepLast
    rw [ingestLabels_length, hlen]
    rw [show (10 - Int.toNat 8) = 2 from rfl]

/-- Witness for C9 (amended): the bound after one operation and the
3rd-to-10th-label property on ten concrete ingests. -/
theorem trail_fifo_C9_witness :
    ((VSriYantraCore.runOps (VSriYantraCore.init 6 8)
        [VOp.ing { content := "x", octave := some 1, strength := 1/2 }]).trail.length : Int) ≤ 8 ∧
    (execIngests (VSriYantraCore.init 6 8)
        (List.replicate 10 { content := "x", octave := some 1, strength := 1/2 })).trail =
      (ingestLabels (VSriYantraCore.init 6 8)
        (List.replicate 10 { content := "x", octave := some 1, strength := 1/2 })).drop 2 := by
  constructor
  · exact trail_fifo_C9.1 6 8 [VOp.ing { content := "x", octave := some 1, strength := 1/2 }]
      (by norm_num)
  · exact trail_fifo_C9.2.2 6
      (List.replicate 10 { content := "x", octave := some 1, strength := 1/2 }) rfl

/-- Counterexample to C9 as stated: with `max_trail = 0` the trail length
can exceed the configured maximum — `trail[-0:]` is the whole list in
Python, so importing a seed whose trail has one entry leaves a trail of
length 1 > 0. -/
theorem trail_fifo_C9_counterexample :
    (VSriYantraCore.runOps (VSriYantraCore.init 6 0)
      [VOp.imp 0 (some (Json.jobj [(("trail"), Json.jarr [Json.jstr "x"])]))]).max_trail = 0 ∧
    (VSriYantraCore.runOps (VSriYantraCore.init 6 0)
      [VOp.imp 0 (some (Json.jobj [(("trail"), Json.jarr [Json.jstr "x"])]))]).trail = [("x")] := by
  constructor
  · with_unfolding_all decide
  · with_unfolding_all decide

/-! ## Seed decoding (claim C6) -/

/-- String-to-int coercion only raises `ValueError`. -/
theorem pyParseInt_err (s : String) (e : PyErr) (h : pyParseInt s = .error e) :
    e = .valueError := by
  unfold pyParseInt at h
  split at h
  all_goals split at h
  all_goals cases h
  all_goals rfl

/-- Int coercion of a JSON value never raises a decode error. -/
theorem pyInt_ne_decode (j : Json) (e : PyErr) (h : pyInt j = .error e) :
    e ≠ .jsonDecodeError := by
  cases j with
  | jstr s =>
    rw [pyParseInt_err s e h]
    intro hh
    cases hh
  | jint n => cases h
  | jfloat q => cases h
  | jbool b => cases h
  | jnull => injection h with h; rw [← h]; intro hh; cases hh
  | jarr xs => injection h with h; rw [← h]; intro hh; cases hh
  | jobj fs => injection h with h; rw [← h]; intro hh; cases hh

/-- Float coercion of a JSON value never raises a decode error. -/
theorem pyFloat_ne_decode (j : Json) (e : PyErr) (h : pyFloat j = .error e) :
    e ≠ .jsonDecodeError := by
  cases j with
  | jstr s =>
    simp only [pyFloat] at h
    cases hpf : pyParseFloat s with
    | some q => rw [hpf] at h; cases h
    | none =>
      rw [hpf] at h
      injection h with h
      rw [← h]
      intro hh
      cases hh
  | jint n => cases h
  | jfloat q => cases h
  | jbool b => cases h
  | jnull => injection h with h; rw [← h]; intro hh; cases hh
  | jarr xs => injection h with h; rw [← h]; intro hh; cases hh
  | jobj fs => injection h with h; rw [← h]; intro hh; cases hh

/-- One step of the lattice dict comprehension never raises a decode error. -/
theorem latticeEntryStep_ne_decode (acc : Except PyErr (List (Int × Int)))
    (kv : String × Json) (e : PyErr)
    (hacc : ∀ e', acc = .error e' → e' ≠ .jsonDecodeError)
    (h : latticeEntryStep acc kv = .error e) : e ≠ .jsonDecodeError := by
  unfold latticeEntryStep at h
  split at h
  · next e0 => injection h with h; exact h ▸ hacc e0 rfl
  · split at h
    · next heq => injection h with h; exact h ▸ (by rw [pyParseInt_err _ _ heq]; intro hh; cases hh)
    · split at h
      · next heq => injection h with h; exact h ▸ pyInt_ne_decode _ _ heq
      · cases h

/-- The lattice coercion never raises a decode error. -/
theorem latticeOfJson_ne_decode (j : Json) (e : PyErr)
    (h : latticeOfJson j = .error e) : e ≠ .jsonDecodeError := by
  cases j with
  | jobj lf =>
    unfold latticeOfJson at h
    have aux : ∀ (lf : List (String × Json)) (acc : Except PyErr (List (Int × Int))),
        (∀ e', acc = .error e' → e' ≠ .jsonDecodeError) →
        lf.foldl latticeEntryStep acc = .error e → e ≠ .jsonDecodeError := by
      intro lf
      induction lf with
      | nil => intro acc hacc hfold; exact hacc e hfold
      | cons kv lf ih =>
        intro acc hacc hfold
        exact ih (latticeEntryStep acc kv)
          (fun e' he' => latticeEntryStep_ne_decode acc kv e' hacc he') hfold
    exact aux lf (.ok []) (fun e' he' => by cases he') h
  | jnull => injection h with h; rw [← h]; intro hh; cases hh
  | jbool b => injection h with h; rw [← h]; intro hh; cases hh
  | jint n => injection h with h; rw [← h]; intro hh; cases hh
  | jfloat q => injection h with h; rw [← h]; intro hh; cases hh
  | jstr s => injection h with h; rw [← h]; intro hh; cases hh
  | jarr xs => injection h with h; rw [← h]; intro hh; cases hh

/-- The trail coercion never raises a decode error. -/
theorem trailOfJson_ne_decode (j : Json) (e : PyErr)
    (h : trailOfJson j = .error e) : e ≠ .jsonDecodeError := by
  cases j with
  | jarr xs => cases h
  | jstr s => cases h
  | jobj fs => cases h
  | jnull => injection h with h; rw [← h]; intro hh; cases hh
  | jbool b => injection h with h; rw [← h]; intro hh; cases hh
  | jint n => injection h with h; rw [← h]; intro hh; cases hh
  | jfloat q => injection h with h; rw [← h]; intro hh; cases hh

/-- Reduction of `from_json` on an object payload. -/
theorem from_json_jobj (now : ℚ) (fields : List (String × Json)) :
    VStateSeed.from_json now (some (.jobj fields)) =
      (match pyFloat ((dictGet fields ("timestamp")).getD (.jfloat now)) with
       | .error e => .error e
       | .ok ts =>
         match latticeOfJson ((dictGet fields ("lattice")).getD (.jobj [])) with
         | .error e => .error e
         | .ok lat =>
           match pyInt ((dictGet fields ("last_state_id")).getD (.jint 0)) with
           | .error e => .error e
           | .ok sid =>
             match trailOfJson ((dictGet fields ("trail")).getD (.jarr [])) with
             | .error e => .error e
             | .ok tr => .ok ⟨ts, lat, sid, tr⟩) := rfl

/-- A parsed payload never fails with a decode error. -/
theorem from_json_some_ne_decode (now : ℚ) (j : Json) (e : PyErr)
    (h : VStateSeed.from_json now (some j) = .error e) : e ≠ .jsonDecodeError := by
  cases j with
  | jobj fields =>
    rw [from_json_jobj] at h
    split at h
    · rename_i e1 heq
      injection h with h
      exact h ▸ pyFloat_ne_decode _ _ heq
    · split at h
      · rename_i e1 heq
        injection h with h
        exact h ▸ latticeOfJson_ne_decode _ _ heq
      · split at h
        · rename_i e1 heq
          injection h with h
          exact h ▸ pyInt_ne_decode _ _ heq
        · split at h
          · rename_i e1 heq
            injection h with h
            exact h ▸ trailOfJson_ne_decode _ _ heq
          · cases h
  | jnull =>
    rw [show VStateSeed.from_json now (some Json.jnull) = .error .attributeError from rfl] at h
    injection h with h
    rw [← h]
    intro hh
    cases hh
  | jbool b =>
    rw [show VStateSeed.from_json now (some (Json.jbool b)) = .error .attributeError from rfl] at h
    injection h with h
    rw [← h]
    intro hh
    cases hh
  | jint n =>
    rw [show VStateSeed.from_json now (some (Json.jint n)) = .error .attributeError from rfl] at h
    injection h with h
    rw [← h]
    intro hh
    cases hh
  | jfloat q =>
    rw [show VStateSeed.from_json now (some (Json.jfloat q)) = .error .attributeError from rfl] at h
    injection h with h
    rw [← h]
    intro hh
    cases hh
  | jstr str =>
    rw [show VStateSeed.from_json now (some (Json.jstr str)) = .error .attributeError from rfl] at h
    injection h with h
    rw [← h]
    intro hh
    cases hh
  | jarr xs =>
    rw [show VStateSeed.from_json now (some (Json.jarr xs)) = .error .attributeError from rfl] at h
    injection h with h
    rw [← h]
    intro hh
    cases hh

/-- C6 (amended): an unparseable payload fails with the decode error and a
parseable payload never does; missing fields are all defaulted (an empty
object decodes to the default seed); but a present field whose value cannot
be coerced fails with a ValueError/TypeError/AttributeError (see the
counterexample) — decoding is not total on parseable payloads.  A failed
`import_seed` leaves the engine unchanged. -/
theorem seed_decoding_C6 :
    (∀ now : ℚ, VStateSeed.from_json now none = .error .jsonDecodeError) ∧
    (∀ (now : ℚ) (j : Json) (e : PyErr),
      VStateSeed.from_json now (some j) = .error e → e ≠ .jsonDecodeError) ∧
    (∀ now : ℚ, VStateSeed.from_json now (some (.jobj [])) =
      .ok { timestamp := now, lattice := [], last_state_id := 0, trail := [] }) ∧
    (∀ (now : ℚ) (c : VSriYantraCore) (p : Option Json) (e : PyErr),
      VSriYantraCore.importSeed now c p = .error e →
      VSriYantraCore.importSeedTotal now c p = c) := by
  refine ⟨fun now => rfl, from_json_some_ne_decode, fun now => rfl, ?_⟩
  intro now c p e h
  unfold VSriYantraCore.importSeedTotal
  rw [h]

/-- Witness for C6 (amended) at concrete payloads: `none` (unparseable)
gives the decode error, a concrete parseable-but-uncoercible payload gives
a different error, and a failed import leaves a fresh engine unchanged. -/
theorem seed_decoding_C6_witness :
    VStateSeed.from_json 0 none = Except.error PyErr.jsonDecodeError ∧
    PyErr.valueError ≠ PyErr.jsonDecodeError ∧
    VSriYantraCore.importSeedTotal 0 (VSriYantraCore.init 6 8) (some (Json.jstr "q")) =
      VSriYantraCore.init 6 8 := by
  refine ⟨seed_decoding_C6.1 0, ?_, ?_⟩
  · exact seed_decoding_C6.2.1 0
      (Json.jobj [(("lattice"), Json.jobj [(("1"), Json.jstr "x")])])
      PyErr.valueError (by with_unfolding_all decide)
  · exact seed_decoding_C6.2.2.2 0 (VSriYantraCore.init 6 8) (some (Json.jstr "q"))
      PyErr.attributeError (by with_unfolding_all decide)

/-- Counterexample to C6 as stated: this payload parses as structured data
(a JSON object), yet `from_json` fails — the lattice value "x" cannot be
coerced by `int(...)`, which raises a ValueError (not a DecodeError).  So
type-mismatched fields are not always defaulted or coerced, and failure is
not limited to unparseable payloads. -/
theorem seed_decoding_C6_counterexample :
    VStateSeed.from_json 0
      (some (Json.jobj [(("lattice"), Json.jobj [(("1"), Json.jstr "x")])])) =
      .error .valueError := by
  with_unfolding_all decide

/-! ## Decimal round-trip: Python `int(str(k)) = k` (for claim C1) -/

theorem digitsRevToNat_fuel :
    ∀ (fuel n : Nat), n ≤ fuel → digitsRevToNat (natDigitsRevFuel fuel n) = n := by
  intro fuel
  induction fuel with
  | zero =>
    intro n h
    have : n = 0 := by omega
    subst this
    rfl
  | succ fuel ih =>
    intro n h
    unfold natDigitsRevFuel
    by_cases h0 : n = 0
    · subst h0
      rfl
    · rw [if_neg h0]
      show n % 10 + 10 * digitsRevToNat (natDigitsRevFuel fuel (n / 10)) = n
      rw [ih (n / 10) (by omega)]
      omega

theorem natDigitsRevFuel_lt_ten :
    ∀ (fuel n d : Nat), d ∈ natDigitsRevFuel fuel n → d < 10 := by
  intro fuel
  induction fuel with
  | zero => intro n d h; cases h
  | succ fuel ih =>
    intro n d h
    unfold natDigitsRevFuel at h
    by_cases h0 : n = 0
    · rw [if_pos h0] at h; cases h
    · rw [if_neg h0] at h
      rcases List.mem_cons.mp h with h | h
      · omega
      · exact ih _ _ h

theorem digitChar_props : ∀ d < 10,
    (Nat.digitChar d).isDigit = true ∧ (Nat.digitChar d).toNat - 48 = d := by decide

theorem foldl_digitChars (ds : List Nat) (acc : Nat) (h : ∀ d ∈ ds, d < 10) :
    (ds.reverse.map Nat.digitChar).foldl (fun a c => a * 10 + (c.toNat - 48)) acc =
      acc * 10 ^ ds.length + digitsRevToNat ds := by
  induction ds generalizing acc with
  | nil => simp [digitsRevToNat]
  | cons d ds ih =>
    rw [List.reverse_cons, List.map_append, List.foldl_append]
    rw [ih acc (fun x hx => h x (List.mem_cons_of_mem d hx))]
    show (acc * 10 ^ ds.length + digitsRevToNat ds) * 10 +
      ((Nat.digitChar d).toNat - 48) = _
    rw [(digitChar_props d (h d (List.mem_cons_self d ds))).2]
    show _ = acc * 10 ^ (ds.length + 1) + digitsRevToNat (d :: ds)
    rw [pow_succ]
    show _ = acc * (10 ^ ds.length * 10) + (d + 10 * digitsRevToNat ds)
    ring

theorem parseNat_natDigitChars (n : Nat) : parseNatChars (natDigitChars n) = some n := by
  by_cases h0 : n = 0
  · subst h0
    decide
  · unfold natDigitChars
    rw [if_neg h0]
    have hne : natDigitsRev n ≠ [] := by
      unfold natDigitsRev
      rcases n with _ | m
      · exact absurd rfl h0
      · unfold natDigitsRevFuel
        rw [if_neg h0]
        exact List.cons_ne_nil _ _
    have hlt : ∀ d ∈ natDigitsRev n, d < 10 := fun d hd => natDigitsRevFuel_lt_ten n n d hd
    unfold parseNatChars
    rw [if_neg (by
      intro hE
      apply hne
      have := List.isEmpty_iff.mp hE
      have hlen := congrArg List.length this
      rw [List.length_map, List.length_reverse] at hlen
      exact List.length_eq_zero.mp hlen)]
    rw [if_pos (by
      rw [List.all_eq_true]
      intro c hc
      rcases List.mem_map.mp hc with ⟨d, hd, hdc⟩
      rw [← hdc]
      exact (digitChar_props d (hlt d (List.mem_reverse.mp hd))).1)]
    unfold digitsValNat
    rw [foldl_digitChars _ 0 hlt]
    simp only [Nat.zero_mul, Nat.zero_add]
    unfold natDigitsRev
    exact congrArg some (digitsRevToNat_fuel n n (Nat.le_refl n))

/-- The decimal characters of a natural number are nonempty and start with
a digit (never a sign). -/
theorem natDigitChars_shape (n : Nat) :
    ∃ c cs, natDigitChars n = c :: cs ∧ c.isDigit = true := by
  by_cases h0 : n = 0
  · subst h0
    exact ⟨Char.ofNat 48, [], rfl, by decide⟩
  · unfold natDigitChars
    rw [if_neg h0]
    rcases hrev : (natDigitsRev n).reverse.map Nat.digitChar with _ | ⟨c, cs⟩
    · have hne : natDigitsRev n ≠ [] := by
        rcases n with _ | m
        · exact absurd rfl h0
        · unfold natDigitsRev
          simp only [natDigitsRevFuel]
          rw [if_neg h0]
          exact List.cons_ne_nil _ _
      have hlen := congrArg List.length hrev
      rw [List.length_map, List.length_reverse] at hlen
      exact absurd (List.length_eq_zero.mp hlen) hne
    · refine ⟨c, cs, rfl, ?_⟩
      have hc : c ∈ (natDigitsRev n).reverse.map Nat.digitChar := by
        rw [hrev]
        exact List.mem_cons_self c cs
      rcases List.mem_map.mp hc with ⟨d, hd, hdc⟩
      have hd10 : d < 10 := natDigitsRevFuel_lt_ten n n d (List.mem_reverse.mp hd)
      rw [← hdc]
      exact (digitChar_props d hd10).1

/-- Python `int(str(k)) = k` for every integer `k`. -/
theorem pyParseInt_pyStrOfInt (k : Int) : pyParseInt (pyStrOfInt k) = .ok k := by
  obtain ⟨c, cs, hshape, hdigit⟩ := natDigitChars_shape k.natAbs
  have hcminus : c ≠ '-' := fun hh => by rw [hh] at hdigit; cases hdigit
  have hcplus : c ≠ '+' := fun hh => by rw [hh] at hdigit; cases hdigit
  by_cases hk : k < 0
  · unfold pyStrOfInt
    rw [if_pos hk]
    unfold pyParseInt
    show (match (Char.ofNat 45 :: natDigitChars k.natAbs : List Char) with
      | '-' :: cs =>
        (match parseNatChars cs with
         | some n => Except.ok (-(n : Int))
         | none => Except.error PyErr.valueError)
      | '+' :: cs =>
        (match parseNatChars cs with
         | some n => Except.ok ((n : Int))
         | none => Except.error PyErr.valueError)
      | cs =>
        (match parseNatChars cs with
         | some n => Except.ok ((n : Int))
         | none => Except.error PyErr.valueError)) = Except.ok k
    split
    · next cs1 heq =>
      injection heq with h1 h2
      rw [← h2, parseNat_natDigitChars k.natAbs]
      exact congrArg Except.ok (by omega)
    · next cs1 heq =>
      injection heq with h1 h2
      exact absurd h1 (by decide)
    · next h1 h2 =>
      exact absurd (show (Char.ofNat 45 :: natDigitChars k.natAbs : List Char) =
        '-' :: natDigitChars k.natAbs from rfl) (fun hh => h1 _ hh)
  · unfold pyStrOfInt
    rw [if_neg hk]
    unfold pyStrOfNat pyParseInt
    show (match (natDigitChars k.natAbs : List Char) with
      | '-' :: cs =>
        (match parseNatChars cs with
         | some n => Except.ok (-(n : Int))
         | none => Except.error PyErr.valueError)
      | '+' :: cs =>
        (match parseNatChars cs with
         | some n => Except.ok ((n : Int))
         | none => Except.error PyErr.valueError)
      | cs =>
        (match parseNatChars cs with
         | some n => Except.ok ((n : Int))
         | none => Except.error PyErr.valueError)) = Except.ok k
    rw [hshape]
    split
    · next cs1 heq =>
      injection heq with h1 h2
      exact absurd h1 hcminus
    · next cs1 heq =>
      injection heq with h1 h2
      exact absurd h1 hcplus
    · next h1 h2 =>
      rw [← hshape, parseNat_natDigitChars k.natAbs]
      exact congrArg Except.ok (by omega)

/-! ## Dict invariants for the lattice (claim C1) -/

/-- Octaves 1..7 are all present as keys. -/
def hasKeys17 (fs : List (Int × Int)) : Bool :=
  (dictGet fs 1).isSome && (dictGet fs 2).isSome && (dictGet fs 3).isSome &&
  (dictGet fs 4).isSome && (dictGet fs 5).isSome && (dictGet fs 6).isSome &&
  (dictGet fs 7).isSome

/-- The well-formedness invariant of the fill dict: pairwise-distinct keys
that include 1..7.  It holds on every reachable engine state. -/
def latticeKeysOK (fs : List (Int × Int)) : Bool := keysUniq fs && hasKeys17 fs

theorem dictGet_append (xs ys : List (Int × Int)) (k : Int) :
    dictGet (xs ++ ys) k =
      (match dictGet xs k with
       | some v => some v
       | none => dictGet ys k) := by
  induction xs with
  | nil => rfl
  | cons kv t ih =>
    show (if kv.1 == k then some kv.2 else dictGet (t ++ ys) k) = _
    by_cases h : kv.1 == k
    · rw [if_pos h]
      show _ = (match (if kv.1 == k then some kv.2 else dictGet t k) with
        | some v => some v
        | none => dictGet ys k)
      rw [if_pos h]
    · rw [if_neg h, ih]
      show _ = (match (if kv.1 == k then some kv.2 else dictGet t k) with
        | some v => some v
        | none => dictGet ys k)
      rw [if_neg h]

theorem keysUniq_dictSet (d : List (Int × Int)) (k v : Int)
    (h : keysUniq d = true) : keysUniq (dictSet d k v) = true := by
  induction d with
  | nil => rfl
  | cons kv t ih =>
    unfold keysUniq at h
    rw [Bool.and_eq_true] at h
    unfold dictSet
    by_cases hk : kv.1 == k
    · rw [if_pos hk]
      unfold keysUniq
      rw [Bool.and_eq_true]
      exact ⟨h.1, h.2⟩
    · rw [if_neg hk]
      unfold keysUniq
      rw [Bool.and_eq_true]
      refine ⟨?_, ih h.2⟩
      rw [dictGet_dictSet]
      rw [if_neg (fun hh => hk (beq_iff_eq.mpr hh))]
      exact h.1

theorem dictSet_of_get_none (d : List (Int × Int)) (k v : Int)
    (h : dictGet d k = none) : dictSet d k v = d ++ [(k, v)] := by
  induction d with
  | nil => rfl
  | cons kv t ih =>
    unfold dictGet at h
    by_cases hk : kv.1 == k
    · rw [if_pos hk] at h
      cases h
    · rw [if_neg hk] at h
      show (if kv.1 == k then (kv.1, v) :: t else kv :: dictSet t k v) = _
      rw [if_neg hk, ih h]
      rfl

theorem foldl_dictSet_append :
    ∀ (fs acc : List (Int × Int)),
      (∀ k, (dictGet fs k).isSome = true → dictGet acc k = none) →
      keysUniq fs = true →
      fs.foldl (fun acc kv => dictSet acc kv.1 kv.2) acc = acc ++ fs := by
  intro fs
  induction fs with
  | nil => intro acc _ _; exact (List.append_nil acc).symm
  | cons kv fs ih =>
    intro acc hdis huniq
    unfold keysUniq at huniq
    rw [Bool.and_eq_true] at huniq
    have hknone : dictGet acc kv.1 = none := by
      apply hdis
      show (dictGet (kv :: fs) kv.1).isSome = true
      unfold dictGet
      rw [if_pos (beq_iff_eq.mpr rfl)]
      rfl
    show fs.foldl (fun acc kv => dictSet acc kv.1 kv.2) (dictSet acc kv.1 kv.2) = _
    rw [dictSet_of_get_none acc kv.1 kv.2 hknone]
    rw [ih (acc ++ [(kv.1, kv.2)]) ?disj huniq.2]
    · rw [List.append_assoc]
      rfl
    case disj =>
      intro k hkin
      rw [dictGet_append]
      have hacc : dictGet acc k = none := by
        apply hdis
        show (dictGet (kv :: fs) k).isSome = true
        unfold dictGet
        by_cases hh : kv.1 == k
        · rw [if_pos hh]; rfl
        · rw [if_neg hh]; exact hkin
      rw [hacc]
      show dictGet [(kv.1, kv.2)] k = none
      unfold dictGet
      rw [if_neg ?kne]
      · rfl
      case kne =>
        intro hh
        have hkeq : kv.1 = k := beq_iff_eq.mp hh
        rw [← hkeq] at hkin
        have hnone := Option.isNone_iff_eq_none.mp huniq.1
        rw [hnone] at hkin
        cases hkin

/-- Rebuilding an association list with distinct keys is the identity. -/
theorem rebuild_id (fs : List (Int × Int)) (h : keysUniq fs = true) :
    fs.foldl (fun acc kv => dictSet acc kv.1 kv.2) [] = fs := by
  rw [foldl_dictSet_append fs [] (fun k _ => rfl) h]
  rfl

/-- `setdefault` is a no-op when the key is present. -/
theorem dictSetdefault_of_isSome (d : List (Int × Int)) (k v : Int)
    (h : (dictGet d k).isSome = true) : dictSetdefault d k v = d := by
  unfold dictSetdefault
  cases hg : dictGet d k with
  | some w => rfl
  | none => rw [hg] at h; cases h

/-- After `setdefault` the key is present. -/
theorem dictGet_setdefault_self (d : List (Int × Int)) (k v : Int) :
    (dictGet (dictSetdefault d k v) k).isSome = true := by
  unfold dictSetdefault
  cases hg : dictGet d k with
  | some w => rw [hg]; rfl
  | none =>
    rw [dictGet_append, hg]
    show (dictGet [(k, v)] k).isSome = true
    unfold dictGet
    rw [if_pos (beq_iff_eq.mpr rfl)]
    rfl

/-- `setdefault` preserves presence of any key. -/
theorem dictGet_setdefault_mono (d : List (Int × Int)) (k v k' : Int)
    (h : (dictGet d k').isSome = true) :
    (dictGet (dictSetdefault d k v) k').isSome = true := by
  unfold dictSetdefault
  cases hg : dictGet d k with
  | some w => exact h
  | none =>
    rw [dictGet_append]
    cases hg' : dictGet d k' with
    | some w => rfl
    | none => rw [hg'] at h; cases h

/-- Appending a fresh key preserves key uniqueness. -/
theorem keysUniq_append_single (d : List (Int × Int)) (k v : Int)
    (huniq : keysUniq d = true) (hnone : dictGet d k = none) :
    keysUniq (d ++ [(k, v)]) = true := by
  induction d with
  | nil => rfl
  | cons kv t ih =>
    unfold keysUniq at huniq
    rw [Bool.and_eq_true] at huniq
    unfold dictGet at hnone
    by_cases hk : kv.1 == k
    · rw [if_pos hk] at hnone
      cases hnone
    · rw [if_neg hk] at hnone
      show keysUniq (kv :: (t ++ [(k, v)])) = true
      unfold keysUniq
      rw [Bool.and_eq_true]
      constructor
      · rw [dictGet_append, Option.isNone_iff_eq_none.mp huniq.1]
        show (dictGet [(k, v)] kv.1).isNone = true
        unfold dictGet
        rw [if_neg (fun hh => hk (beq_iff_eq.mpr (beq_iff_eq.mp hh).symm))]
        rfl
      · exact ih huniq.2 hnone

/-- `setdefault` preserves key uniqueness. -/
theorem keysUniq_setdefault (d : List (Int × Int)) (k v : Int)
    (h : keysUniq d = true) : keysUniq (dictSetdefault d k v) = true := by
  unfold dictSetdefault
  cases hg : dictGet d k with
  | some w => exact h
  | none => exact keysUniq_append_single d k v h hg

/-- Rebuilding any association list yields distinct keys. -/
theorem keysUniq_fold_dictSet :
    ∀ (fs acc : List (Int × Int)), keysUniq acc = true →
      keysUniq (fs.foldl (fun acc kv => dictSet acc kv.1 kv.2) acc) = true := by
  intro fs
  induction fs with
  | nil => intro acc h; exact h
  | cons kv fs ih =>
    intro acc h
    exact ih (dictSet acc kv.1 kv.2) (keysUniq_dictSet acc kv.1 kv.2 h)

/-- Key uniqueness is preserved by the run of `setdefault`s in `restore`. -/
theorem keysUniq_fold_setdefault :
    ∀ (ks : List Nat) (d : List (Int × Int)), keysUniq d = true →
      keysUniq (ks.foldl (fun acc (i : Nat) => dictSetdefault acc ((i : Int) + 1) 0) d) = true := by
  intro ks
  induction ks with
  | nil => intro d h; exact h
  | cons i ks ih =>
    intro d h
    exact ih (dictSetdefault d ((i : Int) + 1) 0) (keysUniq_setdefault d _ 0 h)

/-- A key is present after the run of `setdefault`s if it is one of the
defaulted keys or was present before. -/
theorem isSome_fold_setdefault :
    ∀ (ks : List Nat) (d : List (Int × Int)) (k : Int),
      ((∃ i ∈ ks, (i : Int) + 1 = k) ∨ (dictGet d k).isSome = true) →
      (dictGet (ks.foldl (fun acc (i : Nat) => dictSetdefault acc ((i : Int) + 1) 0) d) k).isSome = true := by
  intro ks
  induction ks with
  | nil =>
    intro d k h
    rcases h with ⟨i, hi, _⟩ | h
    · cases hi
    · exact h
  | cons i ks ih =>
    intro d k h
    rcases h with ⟨j, hj, hjk⟩ | h
    · rcases List.mem_cons.mp hj with hj | hj
      · subst hj
        refine ih _ k (Or.inr ?_)
        rw [← hjk]
        exact dictGet_setdefault_self d _ 0
      · exact ih _ k (Or.inl ⟨j, hj, hjk⟩)
    · exact ih _ k (Or.inr (dictGet_setdefault_mono d _ 0 k h))

/-- The run of `setdefault`s in `restore` is a no-op when 1..7 are present. -/
theorem fold_setdefault_id :
    ∀ (ks : List Nat) (d : List (Int × Int)),
      (∀ i ∈ ks, (dictGet d ((i : Int) + 1)).isSome = true) →
      ks.foldl (fun acc (i : Nat) => dictSetdefault acc ((i : Int) + 1) 0) d = d := by
  intro ks
  induction ks with
  | nil => intro d _; rfl
  | cons i ks ih =>
    intro d h
    show ks.foldl _ (dictSetdefault d ((i : Int) + 1) 0) = d
    rw [dictSetdefault_of_isSome d _ 0 (h i (List.mem_cons_self i ks))]
    exact ih d (fun j hj => h j (List.mem_cons_of_mem i hj))

/-- The restored fill dict always satisfies the key invariant. -/
theorem restore_keysOK (snap : List (Int × Int)) :
    latticeKeysOK (VFaceLattice.restore snap).faces = true := by
  unfold VFaceLattice.restore latticeKeysOK
  dsimp only
  rw [Bool.and_eq_true]
  constructor
  · exact keysUniq_fold_setdefault (List.range 7) _
      (keysUniq_fold_dictSet snap [] rfl)
  · unfold hasKeys17
    simp only [Bool.and_eq_true]
    refine ⟨⟨⟨⟨⟨⟨?_, ?_⟩, ?_⟩, ?_⟩, ?_⟩, ?_⟩, ?_⟩ <;>
      exact isSome_fold_setdefault (List.range 7) _ _ (Or.inl (by decide))

/-- Restoring a well-formed fill dict is the identity. -/
theorem restore_id (fs : List (Int × Int)) (h : latticeKeysOK fs = true) :
    VFaceLattice.restore fs = ⟨fs⟩ := by
  unfold latticeKeysOK at h
  rw [Bool.and_eq_true] at h
  unfold VFaceLattice.restore
  dsimp only
  rw [rebuild_id fs h.1]
  rw [fold_setdefault_id (List.range 7) fs ?present]
  case present =>
    intro i hi
    have hi7 : i < 7 := List.mem_range.mp hi
    have hk := h.2
    unfold hasKeys17 at hk
    simp only [Bool.and_eq_true] at hk
    interval_cases i
    · exact hk.1.1.1.1.1.1
    · exact hk.1.1.1.1.1.2
    · exact hk.1.1.1.1.2
    · exact hk.1.1.1.2
    · exact hk.1.1.2
    · exact hk.1.2
    · exact hk.2

/-! ## Round-trip of the seed payload (claim C1) -/

/-- Decoding the encoded lattice dict recovers it verbatim. -/
theorem latticeOfJson_encode_aux :
    ∀ (fs acc : List (Int × Int)),
      (fs.map (fun kv => (pyStrOfInt kv.1, Json.jint kv.2))).foldl latticeEntryStep (.ok acc) =
        .ok (fs.foldl (fun acc kv => dictSet acc kv.1 kv.2) acc) := by
  intro fs
  induction fs with
  | nil => intro acc; rfl
  | cons kv fs ih =>
    intro acc
    show (fs.map (fun kv => (pyStrOfInt kv.1, Json.jint kv.2))).foldl latticeEntryStep
      (latticeEntryStep (.ok acc) (pyStrOfInt kv.1, Json.jint kv.2)) = _
    have hstep : latticeEntryStep (.ok acc) (pyStrOfInt kv.1, Json.jint kv.2) =
        .ok (dictSet acc kv.1 kv.2) := by
      unfold latticeEntryStep
      dsimp only
      rw [show pyInt (Json.jint kv.2) = .ok kv.2 from rfl]
      rw [pyParseInt_pyStrOfInt kv.1]
    rw [hstep]
    exact ih (dictSet acc kv.1 kv.2)

/-- The JSON lattice encoding round-trips on a well-formed fill dict. -/
theorem latticeOfJson_encode (fs : List (Int × Int)) (h : keysUniq fs = true) :
    latticeOfJson (.jobj (fs.map (fun kv => (pyStrOfInt kv.1, Json.jint kv.2)))) = .ok fs := by
  show (fs.map (fun kv => (pyStrOfInt kv.1, Json.jint kv.2))).foldl latticeEntryStep (.ok []) = _
  rw [latticeOfJson_encode_aux fs []]
  rw [rebuild_id fs h]

/-- The JSON trail encoding round-trips. -/
theorem trailOfJson_encode (tr : List String) :
    trailOfJson (.jarr (tr.map Json.jstr)) = .ok tr := by
  show Except.ok ((tr.map Json.jstr).map pyStr) = _
  rw [List.map_map]
  have : pyStr ∘ Json.jstr = id := funext (fun s => rfl)
  rw [this, List.map_id]

/-- Decoding an exported seed payload recovers the fill dict, last state id
and trail exactly. -/
theorem from_json_export (now now' : ℚ) (c : VSriYantraCore)
    (h : keysUniq c.lattice.faces = true) :
    VStateSeed.from_json now' (some (VSriYantraCore.export_seed now c)) =
      .ok ⟨now, c.lattice.faces, c.last_state_id, c.trail⟩ := by
  unfold VSriYantraCore.export_seed VStateSeed.to_json VFaceLattice.snapshot
  dsimp only
  rw [from_json_jobj]
  rw [show (dictGet [(("timestamp"), Json.jfloat now),
      (("lattice"), Json.jobj (c.lattice.faces.map (fun kv => (pyStrOfInt kv.1, Json.jint kv.2)))),
      (("last_state_id"), Json.jint c.last_state_id),
      (("trail"), Json.jarr (c.trail.map Json.jstr))] ("timestamp")).getD (Json.jfloat now') =
      Json.jfloat now from rfl]
  rw [show pyFloat (Json.jfloat now) = .ok now from rfl]
  rw [show (dictGet [(("timestamp"), Json.jfloat now),
      (("lattice"), Json.jobj (c.lattice.faces.map (fun kv => (pyStrOfInt kv.1, Json.jint kv.2)))),
      (("last_state_id"), Json.jint c.last_state_id),
      (("trail"), Json.jarr (c.trail.map Json.jstr))] ("lattice")).getD (Json.jobj []) =
      Json.jobj (c.lattice.faces.map (fun kv => (pyStrOfInt kv.1, Json.jint kv.2))) from rfl]
  rw [latticeOfJson_encode c.lattice.faces h]
  rw [show (dictGet [(("timestamp"), Json.jfloat now),
      (("lattice"), Json.jobj (c.lattice.faces.map (fun kv => (pyStrOfInt kv.1, Json.jint kv.2)))),
      (("last_state_id"), Json.jint c.last_state_id),
      (("trail"), Json.jarr (c.trail.map Json.jstr))] ("last_state_id")).getD (Json.jint 0) =
      Json.jint c.last_state_id from rfl]
  rw [show pyInt (Json.jint c.last_state_id) = .ok c.last_state_id from rfl]
  rw [show (dictGet [(("timestamp"), Json.jfloat now),
      (("lattice"), Json.jobj (c.lattice.faces.map (fun kv => (pyStrOfInt kv.1, Json.jint kv.2)))),
      (("last_state_id"), Json.jint c.last_state_id),
      (("trail"), Json.jarr (c.trail.map Json.jstr))] ("trail")).getD (Json.jarr []) =
      Json.jarr (c.trail.map Json.jstr) from rfl]
  rw [trailOfJson_encode c.trail]

/-- The reachable-state invariant: the fill dict is well formed. -/
def coreInv (c : VSriYantraCore) : Bool := latticeKeysOK c.lattice.faces

/-- `add` preserves the fill-dict invariant. -/
theorem add_keysOK (l : VFaceLattice) (o : Int) (h : latticeKeysOK l.faces = true) :
    latticeKeysOK ((l.add o).1).faces = true := by
  unfold VFaceLattice.add PHASES
  dsimp only
  split
  · show latticeKeysOK (dictSet l.faces o (l.fill_level o + 1)) = true
    unfold latticeKeysOK at h ⊢
    rw [Bool.and_eq_true] at h ⊢
    refine ⟨keysUniq_dictSet _ _ _ h.1, ?_⟩
    have mono : ∀ k', (dictGet l.faces k').isSome = true →
        (dictGet (dictSet l.faces o (l.fill_level o + 1)) k').isSome = true := by
      intro k' hk'
      rw [dictGet_dictSet]
      by_cases hko : k' = o
      · rw [if_pos hko]; rfl
      · rw [if_neg hko]; exact hk'
    have h2 := h.2
    unfold hasKeys17 at h2 ⊢
    simp only [Bool.and_eq_true] at h2 ⊢
    exact ⟨⟨⟨⟨⟨⟨mono 1 h2.1.1.1.1.1.1, mono 2 h2.1.1.1.1.1.2⟩, mono 3 h2.1.1.1.1.2⟩,
      mono 4 h2.1.1.1.2⟩, mono 5 h2.1.1.2⟩, mono 6 h2.1.2⟩, mono 7 h2.2⟩
  · exact h

/-- Every operation preserves the fill-dict invariant. -/
theorem step_coreInv (c : VSriYantraCore) (op : VOp) (h : coreInv c = true) :
    coreInv (VSriYantraCore.step c op) = true := by
  cases op with
  | ing p =>
    unfold VSriYantraCore.step
    dsimp only
    rw [ingest_eq c p]
    exact add_keysOK c.lattice (ingOct c p) h
  | imp now payload =>
    show coreInv (VSriYantraCore.importSeedTotal now c payload) = true
    unfold VSriYantraCore.importSeedTotal VSriYantraCore.importSeed
    cases hsj : VStateSeed.from_json now payload with
    | error e => exact h
    | ok seed =>
      dsimp only
      exact restore_keysOK seed.lattice

/-- Reachable engine states satisfy the fill-dict invariant. -/
theorem reachable_coreInv (c : VSriYantraCore) (h : ReachableCore c) :
    coreInv c = true := by
  obtain ⟨bt, mt, ops, hrun⟩ := h
  subst hrun
  have aux : ∀ (ops : List VOp) (c : VSriYantraCore), coreInv c = true →
      coreInv (VSriYantraCore.runOps c ops) = true := by
    intro ops
    induction ops with
    | nil => intro c h; exact h
    | cons op ops ih => intro c h; exact ih _ (step_coreInv c op h)
  exact aux ops _ (by show latticeKeysOK VFaceLattice.initL.faces = true; decide)

/-- C1 (amended): for every reachable engine state with `max_trail ≥ 1`,
exporting the seed and importing it into a fresh engine with the same
`max_trail` succeeds and reproduces the fill map and `last_state_id`
exactly, and the trail up to truncation to the most recent `max_trail`
entries.  (For `max_trail = 0` Python's `[-0:]` slice keeps the whole
imported trail instead of truncating it — see the counterexample.) -/
theorem seed_roundtrip_C1 :
    ∀ c : VSriYantraCore, ReachableCore c → 1 ≤ c.max_trail →
      ∀ (bt' : Int) (now now' : ℚ),
        ∃ c2, VSriYantraCore.importSeed now' (VSriYantraCore.init bt' c.max_trail)
            (some (VSriYantraCore.export_seed now c)) = .ok c2 ∧
          c2.lattice.faces = c.lattice.faces ∧
          c2.last_state_id = c.last_state_id ∧
          c2.trail = keepLast c.max_trail c.trail := by
  intro c hreach hmt bt' now now'
  have hinv : latticeKeysOK c.lattice.faces = true := reachable_coreInv c hreach
  have huniq : keysUniq c.lattice.faces = true := by
    unfold latticeKeysOK at hinv
    exact (Bool.and_eq_true _ _).mp hinv |>.1
  refine ⟨{ VSriYantraCore.init bt' c.max_trail with
      lattice := VFaceLattice.restore c.lattice.faces
      last_state_id := c.last_state_id
      bindu_active := (VFaceLattice.restore c.lattice.faces).axis_ready
      trail := pyTailSlice c.trail (VSriYantraCore.init bt' c.max_trail).max_trail },
    ?_, ?_, rfl, ?_⟩
  · unfold VSriYantraCore.importSeed
    rw [from_json_export now now' c huniq]
  · show (VFaceLattice.restore c.lattice.faces).faces = c.lattice.faces
    rw [restore_id c.lattice.faces hinv]
  · show pyTailSlice c.trail (VSriYantraCore.init bt' c.max_trail).max_trail =
      keepLast c.max_trail c.trail
    exact pyTailSlice_eq_keepLast c.trail c.max_trail hmt

/-- Witness for C1 (amended): a concrete engine after one ingest
round-trips through export/import to a fresh engine. -/
theorem seed_roundtrip_C1_witness :
    ∃ c2, VSriYantraCore.importSeed 0
        (VSriYantraCore.init 6
          (VSriYantraCore.runOps (VSriYantraCore.init 6 8)
            [VOp.ing { content := "x", octave := some 1, strength := 1/2 }]).max_trail)
        (some (VSriYantraCore.export_seed 0
          (VSriYantraCore.runOps (VSriYantraCore.init 6 8)
            [VOp.ing { content := "x", octave := some 1, strength := 1/2 }]))) = .ok c2 ∧
      c2.lattice.faces = (VSriYantraCore.runOps (VSriYantraCore.init 6 8)
        [VOp.ing { content := "x", octave := some 1, strength := 1/2 }]).lattice.faces ∧
      c2.last_state_id = (VSriYantraCore.runOps (VSriYantraCore.init 6 8)
        [VOp.ing { content := "x", octave := some 1, strength := 1/2 }]).last_state_id ∧
      c2.trail = keepLast (VSriYantraCore.runOps (VSriYantraCore.init 6 8)
          [VOp.ing { content := "x", octave := some 1, strength := 1/2 }]).max_trail
        (VSriYantraCore.runOps (VSriYantraCore.init 6 8)
          [VOp.ing { content := "x", octave := some 1, strength := 1/2 }]).trail := by
  exact seed_roundtrip_C1
    (VSriYantraCore.runOps (VSriYantraCore.init 6 8)
      [VOp.ing { content := "x", octave := some 1, strength := 1/2 }])
    ⟨6, 8, [VOp.ing { content := "x", octave := some 1, strength := 1/2 }], rfl⟩
    (by with_unfolding_all decide) 6 0 0

/-- Counterexample to C1 as stated: with `max_trail = 0` the trail of the
fresh engine after the round-trip is the whole source trail (here ["x"],
imported into the source engine beforehand), not the trail truncated to
`max_trail = 0` entries (which would be empty): Python's `trail[-0:]` is
the full list.  The source engine is reachable — it is built from a fresh
engine by one `import_seed`. -/
theorem seed_roundtrip_C1_counterexample :
    (VSriYantraCore.importSeedTotal 0
      (VSriYantraCore.init 6 0)
      (some (VSriYantraCore.export_seed 0
        (VSriYantraCore.runOps (VSriYantraCore.init 6 0)
          [VOp.imp 0 (some (Json.jobj [(("trail"), Json.jarr [Json.jstr "x"])]))])))).trail ≠
    keepLast
      (VSriYantraCore.runOps (VSriYantraCore.init 6 0)
        [VOp.imp 0 (some (Json.jobj [(("trail"), Json.jarr [Json.jstr "x"])]))]).max_trail
      (VSriYantraCore.runOps (VSriYantraCore.init 6 0)
        [VOp.imp 0 (some (Json.jobj [(("trail"), Json.jarr [Json.jstr "x"])]))]).trail := by
  with_unfolding_all decide
